import Mathlib

/-!
The class `EntityAttribute` of `Simulator/Core/Entity/EntityAttribute.js`.

A shallow embedding of the `EntityAttribute` class and of the part of the JavaScript
runtime it relies on (`typeof`, `===`, `Math.abs`, `isNaN`, `<`, `Array.prototype.indexOf`,
`setImmediate`, `Date.now`).

Modelling conventions.
* JavaScript values are the inductive `JsVal`.  Numbers are `JsNum`: NaN, the two infinities
  and exact rationals for the finite doubles (rounding and the sign of zero are not modelled;
  neither is observable by the class).  Objects and functions carry a reference used by `===`;
  an object also carries the result of its numeric coercion (`valueOf`/`toString` followed by
  ToNumber), taken to be fixed and non-throwing.
* A method call returns an `Outcome`: the object state after the call together with the
  exception that propagated out of it, if any.
* The closure variables `previousTime` and `preventUpdate` of `SetUpdateHandler` are fields of
  the state.  Two further ghost fields record what cannot be read off the object itself:
  `pending`, the number of callbacks queued with `setImmediate` and not yet run, and `calls`,
  the handlers invoked so far, in invocation order.  Handlers are taken to return normally and
  not to re-enter the attribute.
* `Date.now()` readings are arguments of the operations that read the clock.
-/

set_option autoImplicit false

/-! ## The JavaScript runtime -/

/-- Numbers: NaN, the infinities, and the finite values. -/
inductive JsNum where
  | nan
  | posInf
  | negInf
  | fin (q : ℚ)
  deriving DecidableEq

/-- Values of the language. -/
inductive JsVal where
  | undefined
  | null
  | bool (b : Bool)
  | num (n : JsNum)
  | str (s : String)
  | bigint (i : Int)
  | symbol (ref : Nat)
  | func (ref : Nat)
  | obj (ref : Nat) (toNum : JsNum)
  deriving DecidableEq

/-- The possible results of `typeof`. -/
inductive JsType where
  | undefined
  | object
  | boolean
  | number
  | string
  | bigint
  | symbol
  | function
  deriving DecidableEq

/-- What a call can throw: the codes of `EntityAttributeExceptionCode` used by the class,
and the runtime's own `TypeError`. -/
inductive Exception where
  | InvalidName
  | InvalidRechargeSpeed
  | InvalidAttributeValue
  | InvalidRechargeType
  | InvalidRechargeValue
  | InvalidStartHandler
  | InvalidStopHandler
  | TypeError
  deriving DecidableEq

namespace JsNum

/-- The test `isNaN` on a number. -/
def isNaN : JsNum → Bool
  | nan => true
  | _ => false

/-- The function `Math.abs` on a number. -/
def abs : JsNum → JsNum
  | nan => nan
  | posInf => posInf
  | negInf => posInf
  | fin q => fin |q|

/-- Number comparison `a < b`; false as soon as one side is NaN. -/
def lt : JsNum → JsNum → Bool
  | nan, _ => false
  | _, nan => false
  | posInf, _ => false
  | _, negInf => false
  | negInf, _ => true
  | fin _, posInf => true
  | fin p, fin q => decide (p < q)

/-- Number equality `a === b`; NaN differs from itself. -/
def strictEq : JsNum → JsNum → Bool
  | nan, _ => false
  | _, nan => false
  | a, b => decide (a = b)

end JsNum

/-! ### String to number -/

/-- White space and line terminators stripped by the string-to-number conversion. -/
def isStrWhiteSpaceChar (c : Char) : Bool :=
  let n := c.toNat
  decide (n = 9) || decide (n = 10) || decide (n = 11) || decide (n = 12) || decide (n = 13) ||
  decide (n = 32) || decide (n = 160) || decide (n = 5760) ||
  (decide (8192 ≤ n) && decide (n ≤ 8202)) ||
  decide (n = 8232) || decide (n = 8233) || decide (n = 8239) || decide (n = 8287) ||
  decide (n = 12288) || decide (n = 65279)

/-- Value of a digit character in the given base, if it is one. -/
def digitValue (base : Nat) (c : Char) : Option Nat :=
  let n := c.toNat
  let v : Option Nat :=
    if 48 ≤ n ∧ n ≤ 57 then some (n - 48)
    else if 97 ≤ n ∧ n ≤ 102 then some (n - 87)
    else if 65 ≤ n ∧ n ≤ 70 then some (n - 55)
    else none
  match v with
  | some d => if d < base then some d else none
  | none => none

/-- Reads a run of digits in the given base onto an accumulator; `none` on a foreign character. -/
def readDigitsAux (base : Nat) : List Char → Nat → Option Nat
  | [], acc => some acc
  | c :: cs, acc =>
    match digitValue base c with
    | some d => readDigitsAux base cs (acc * base + d)
    | none => none

/-- Reads a non-empty run of digits in the given base. -/
def readDigits (base : Nat) (cs : List Char) : Option Nat :=
  if cs.isEmpty then none else readDigitsAux base cs 0

/-- Reads a possibly empty run of decimal digits. -/
def readDecimalDigits (cs : List Char) : Option Nat :=
  readDigitsAux 10 cs 0

/-- Reads an exponent part after its `e`: an optional sign and digits. -/
def readExponent : List Char → Option Int
  | '+' :: cs => (readDigits 10 cs).map Int.ofNat
  | '-' :: cs => (readDigits 10 cs).map (fun n => - Int.ofNat n)
  | cs => (readDigits 10 cs).map Int.ofNat

/-- Scales a rational by a power of ten. -/
def scaleByTen (q : ℚ) (e : Int) : ℚ :=
  if 0 ≤ e then q * (10 : ℚ) ^ e.toNat else q / (10 : ℚ) ^ (-e).toNat

/-- Reads an unsigned decimal literal: digits, an optional fraction, an optional exponent. -/
def readUnsignedDecimal (cs : List Char) : Option ℚ :=
  let (mant, rest) := cs.span (fun c => c != 'e' && c != 'E')
  let (ip, fr) := mant.span (fun c => c != '.')
  let fp : List Char := fr.drop 1
  let hasExp : Bool := !rest.isEmpty
  if ip.isEmpty && fp.isEmpty then none
  else
    match readDecimalDigits ip, readDecimalDigits fp with
    | some i, some f =>
      let m : ℚ := (i : ℚ) + (f : ℚ) / (10 : ℚ) ^ fp.length
      if hasExp then
        match readExponent (rest.drop 1) with
        | some e => some (scaleByTen m e)
        | none => none
      else some m
    | _, _ => none

/-- Reads a decimal literal without its sign, `Infinity` included. -/
def readStrDecimal (cs : List Char) : JsNum :=
  if cs = "Infinity".toList then JsNum.posInf
  else
    match readUnsignedDecimal cs with
    | some q => JsNum.fin q
    | none => JsNum.nan

/-- Negation of a number. -/
def JsNum.neg : JsNum → JsNum
  | .nan => .nan
  | .posInf => .negInf
  | .negInf => .posInf
  | .fin q => .fin (-q)

/-- Reads a numeric literal with white space already stripped. -/
def readStrNumericLiteral : List Char → JsNum
  | [] => JsNum.fin 0
  | '0' :: 'x' :: cs | '0' :: 'X' :: cs =>
    match readDigits 16 cs with
    | some n => JsNum.fin n
    | none => JsNum.nan
  | '0' :: 'o' :: cs | '0' :: 'O' :: cs =>
    match readDigits 8 cs with
    | some n => JsNum.fin n
    | none => JsNum.nan
  | '0' :: 'b' :: cs | '0' :: 'B' :: cs =>
    match readDigits 2 cs with
    | some n => JsNum.fin n
    | none => JsNum.nan
  | '+' :: cs => readStrDecimal cs
  | '-' :: cs => (readStrDecimal cs).neg
  | cs => readStrDecimal cs

/-- The conversion of a string to a number. -/
def stringToNumber (s : String) : JsNum :=
  let cs := s.toList.dropWhile isStrWhiteSpaceChar
  let cs := (cs.reverse.dropWhile isStrWhiteSpaceChar).reverse
  readStrNumericLiteral cs

namespace JsVal

/-- The operator `typeof`. -/
def typeof : JsVal → JsType
  | undefined => JsType.undefined
  | null => JsType.object
  | bool _ => JsType.boolean
  | num _ => JsType.number
  | str _ => JsType.string
  | bigint _ => JsType.bigint
  | symbol _ => JsType.symbol
  | func _ => JsType.function
  | obj _ _ => JsType.object

/-- The operator `===`. -/
def strictEq : JsVal → JsVal → Bool
  | undefined, undefined => true
  | null, null => true
  | bool a, bool b => decide (a = b)
  | num a, num b => JsNum.strictEq a b
  | str a, str b => decide (a = b)
  | bigint a, bigint b => decide (a = b)
  | symbol a, symbol b => decide (a = b)
  | func a, func b => decide (a = b)
  | obj a _, obj b _ => decide (a = b)
  | _, _ => false

/-- The conversion ToNumber; it throws on symbols and on big integers. -/
def toNumber : JsVal → Except Exception JsNum
  | undefined => .ok JsNum.nan
  | null => .ok (JsNum.fin 0)
  | bool b => .ok (JsNum.fin (if b then 1 else 0))
  | num n => .ok n
  | str s => .ok (stringToNumber s)
  | bigint _ => .error Exception.TypeError
  | symbol _ => .error Exception.TypeError
  | func _ => .ok JsNum.nan
  | obj _ n => .ok n

/-- The call `Math.abs(v)`. -/
def mathAbs (v : JsVal) : Except Exception JsNum :=
  match v.toNumber with
  | .ok n => .ok n.abs
  | .error e => .error e

/-- The comparison `v < r` against a right operand that is a number. -/
def lessThanNum (v : JsVal) (r : JsNum) : Except Exception Bool :=
  match v with
  | bigint i => .ok (JsNum.lt (JsNum.fin i) r)
  | _ =>
    match v.toNumber with
    | .ok n => .ok (JsNum.lt n r)
    | .error e => .error e

/-- The property `length` of a string value (zero for anything else). -/
def length : JsVal → Nat
  | str s => s.length
  | _ => 0

end JsVal

/-- The method `Array.prototype.indexOf`: first position equal by `===`, or `-1`. -/
def indexOf (xs : List JsVal) (v : JsVal) : Int :=
  match xs.findIdx? (fun x => JsVal.strictEq x v) with
  | some i => i
  | none => -1

/-! ## The class -/

/-- The table `UpdateType`, entry `None`: no recharge. -/
def UpdateType.None : JsVal := JsVal.num (JsNum.fin 0)

/-- The table `UpdateType`, entry `Sum`: sum current value with the recharge value. -/
def UpdateType.Sum : JsVal := JsVal.num (JsNum.fin 1)

/-- The table `UpdateType`, entry `Set`: set current value to the recharge value. -/
def UpdateType.Set : JsVal := JsVal.num (JsNum.fin 2)

/-- The table `UpdateType`, entry `Push`: append the recharge value to the current value. -/
def UpdateType.Push : JsVal := JsVal.num (JsNum.fin 3)

/-- The array `ValidUpdateTypes`: the values of `UpdateType`, in key order. -/
def ValidUpdateTypes : List JsVal :=
  [UpdateType.None, UpdateType.Sum, UpdateType.Set, UpdateType.Push]

/-- Contents of the slot `propUpdateUnsubscribe`: never assigned, the cancel closure returned
by `propHandleUpdate`, or `null`. -/
inductive Unsubscribe where
  | undefined
  | closure
  | null
  deriving DecidableEq

/-- The operator `typeof` on the slot `propUpdateUnsubscribe`. -/
def Unsubscribe.typeof : Unsubscribe → JsType
  | .undefined => JsType.undefined
  | .closure => JsType.function
  | .null => JsType.object

/-- State of one `EntityAttribute` instance: its symbol-keyed properties, the two closure
variables of `SetUpdateHandler`, and the ghost fields `pending` and `calls`. -/
structure EntityAttribute where
  propName : JsVal
  propValue : JsVal
  propInitialValue : JsVal
  propInitialUpdateValue : JsVal
  propInitialUpdateSpeed : JsVal
  propInitialUpdateType : JsVal
  propUpdateValue : JsVal
  propUpdateSpeed : JsVal
  propUpdateType : JsVal
  propUpdateUnsubscribe : Unsubscribe
  propStartHandlers : List JsVal
  propStopHandlers : List JsVal
  propChangeHandlers : List JsVal
  previousTime : Int
  preventUpdate : Bool
  pending : Nat
  calls : List JsVal
  deriving DecidableEq

/-- Result of a method call: the state it leaves and the exception it threw, if any. -/
structure Outcome where
  state : EntityAttribute
  thrown : Option Exception
  deriving DecidableEq

/-- Normal return. -/
def Outcome.ok (s : EntityAttribute) : Outcome := ⟨s, none⟩

/-- Abrupt return: the exception propagates, the state is as the throw found it. -/
def Outcome.throw (s : EntityAttribute) (e : Exception) : Outcome := ⟨s, some e⟩

/-- Sequencing of statements: the next one runs only if nothing was thrown. -/
def Outcome.andThen (o : Outcome) (f : EntityAttribute → Outcome) : Outcome :=
  match o.thrown with
  | none => f o.state
  | some _ => o

namespace EntityAttribute

/-- Method `getValue`. -/
def getValue (self : EntityAttribute) : JsVal := self.propValue

/-- Method `getName`. -/
def getName (self : EntityAttribute) : JsVal := self.propName

/-- Method `getUpdateType`. -/
def getUpdateType (self : EntityAttribute) : JsVal := self.propUpdateType

/-- Method `getUpdateSpeed`. -/
def getUpdateSpeed (self : EntityAttribute) : JsVal := self.propUpdateSpeed

/-- Method `getUpdateValue`. -/
def getUpdateValue (self : EntityAttribute) : JsVal := self.propUpdateValue

/-- Method `isUpdatable`. -/
def isUpdatable (self : EntityAttribute) : Bool :=
  !(JsVal.strictEq UpdateType.None self.getUpdateType)

/-- Method `shouldUpdate` of the base class; subclasses may override it. -/
def shouldUpdate (_self : EntityAttribute) : Bool := true

/-- Method `setValue`. -/
def setValue (self : EntityAttribute) (value : JsVal) : Outcome :=
  if JsVal.strictEq JsVal.null value || decide (value.typeof = JsType.undefined) then
    Outcome.throw self Exception.InvalidAttributeValue
  else if !(JsVal.strictEq JsVal.null self.propValue)
      && decide (self.propValue.typeof ≠ JsType.undefined)
      && decide (self.propValue.typeof ≠ value.typeof) then
    Outcome.throw self Exception.InvalidAttributeValue
  else
    Outcome.ok { self with propValue := value }

/-- Method `setUpdateType`. -/
def setUpdateType (self : EntityAttribute) (updateType : JsVal) : Outcome :=
  if indexOf ValidUpdateTypes updateType = -1 then
    Outcome.throw self Exception.InvalidRechargeType
  else
    Outcome.ok { self with propUpdateType := updateType }

/-- Method `setUpdateSpeed`. -/
def setUpdateSpeed (self : EntityAttribute) (updateSpeed : JsVal) : Outcome :=
  if self.isUpdatable = false then
    Outcome.ok self
  else
    match updateSpeed.mathAbs with
    | .error e => Outcome.throw self e
    | .ok a =>
      if a.isNaN then
        Outcome.throw self Exception.InvalidRechargeSpeed
      else
        Outcome.ok { self with propUpdateSpeed := updateSpeed }

/-- Method `setUpdateValue`. -/
def setUpdateValue (self : EntityAttribute) (rechargeValue : JsVal) : Outcome :=
  if self.isUpdatable = false then
    Outcome.ok self
  else if self.propValue.typeof ≠ rechargeValue.typeof then
    Outcome.throw self Exception.InvalidRechargeValue
  else
    Outcome.ok { self with propUpdateValue := rechargeValue }

/-- Call of one handler: it is recorded in `calls`. -/
def invoke (self : EntityAttribute) (handler : JsVal) : EntityAttribute :=
  { self with calls := self.calls ++ [handler] }

/-- Function `TriggerStartHandlers`: `forEach` over the start handlers. -/
def TriggerStartHandlers (self : EntityAttribute) : EntityAttribute :=
  self.propStartHandlers.foldl invoke self

/-- Function `TriggerStopHandlers`: `forEach` over the stop handlers. -/
def TriggerStopHandlers (self : EntityAttribute) : EntityAttribute :=
  self.propStopHandlers.foldl invoke self

/-- Call of `this[propHandleUpdate]()`: queues the tick callback with `setImmediate`.  (The
closure it returns is the value `Unsubscribe.closure`.) -/
def handleUpdate (self : EntityAttribute) : EntityAttribute :=
  { self with pending := self.pending + 1 }

/-- Call of the closure returned by `propHandleUpdate`: sets `preventUpdate`. -/
def cancel (self : EntityAttribute) : EntityAttribute :=
  { self with preventUpdate := true }

/-- Method `startUpdateHandler`. -/
def startUpdateHandler (self : EntityAttribute) : Outcome :=
  if JsVal.strictEq UpdateType.None self.getUpdateType then
    Outcome.ok self
  else
    let s := self.handleUpdate
    let s := { s with propUpdateUnsubscribe := Unsubscribe.closure }
    Outcome.ok s.TriggerStartHandlers

/-- Method `stopUpdateHandler`. -/
def stopUpdateHandler (self : EntityAttribute) : Outcome :=
  if self.propUpdateUnsubscribe.typeof ≠ JsType.function then
    Outcome.ok self
  else
    let s := self.cancel
    let s := { s with propUpdateUnsubscribe := Unsubscribe.null }
    Outcome.ok s.TriggerStopHandlers

/-- Method `addStartHandler`. -/
def addStartHandler (self : EntityAttribute) (callback : JsVal) : Outcome :=
  if callback.typeof ≠ JsType.function then
    Outcome.throw self Exception.InvalidStartHandler
  else
    Outcome.ok { self with propStartHandlers := self.propStartHandlers ++ [callback] }

/-- Method `removeStartHandler`. -/
def removeStartHandler (self : EntityAttribute) (callback : JsVal) : Outcome :=
  Outcome.ok { self with
    propStartHandlers := self.propStartHandlers.filter (fun handler => !(JsVal.strictEq handler callback)) }

/-- Method `registerStopHandler`. -/
def registerStopHandler (self : EntityAttribute) (callback : JsVal) : Outcome :=
  if callback.typeof ≠ JsType.function then
    Outcome.throw self Exception.InvalidStopHandler
  else
    Outcome.ok { self with propStopHandlers := self.propStopHandlers ++ [callback] }

/-- Method `removeStopHandler`. -/
def removeStopHandler (self : EntityAttribute) (callback : JsVal) : Outcome :=
  Outcome.ok { self with
    propStopHandlers := self.propStopHandlers.filter (fun handler => !(JsVal.strictEq handler callback)) }

/-- Method `reset`. -/
def reset (self : EntityAttribute) : Outcome :=
  (((self.setValue self.propInitialValue).andThen
    (fun s => s.setUpdateType s.propInitialUpdateType)).andThen
    (fun s => s.setUpdateSpeed s.propInitialUpdateSpeed)).andThen
    (fun s => s.setUpdateValue s.propInitialUpdateValue)

/-- The condition of the tick, `this.shouldUpdate() && this[propUpdateSpeed] < Date.now() - previousTime`,
with the overridable `shouldUpdate` as a parameter; the comparison is not evaluated when
`shouldUpdate` answers false. -/
def due (should : EntityAttribute → Bool) (self : EntityAttribute) (now : Int) :
    Except Exception Bool :=
  if should self then
    self.propUpdateSpeed.lessThanNum (JsNum.fin ((now - self.previousTime : Int) : ℚ))
  else
    .ok false

/-- One run of the callback queued by `propHandleUpdate` (a scheduler tick): the callback
leaves the queue, then its body runs.  `now` is the clock read by the comparison, `now2` the
clock read when `previousTime` is reassigned.  An exception thrown by `setValue` leaves the
callback before `previousTime` is reassigned and before the callback is queued again.  With
no callback queued nothing runs. -/
def tick (should : EntityAttribute → Bool) (self : EntityAttribute) (now now2 : Int) : Outcome :=
  if self.pending = 0 then
    Outcome.ok self
  else
    let s := { self with pending := self.pending - 1 }
    if self.preventUpdate then
      Outcome.ok s
    else
      match due should self now with
      | .error e => Outcome.throw s e
      | .ok true =>
        let o :=
          if JsVal.strictEq UpdateType.Set s.getUpdateType then
            s.setValue s.getUpdateValue
          else
            Outcome.ok s
        o.andThen (fun s1 => Outcome.ok ({ s1 with previousTime := now2 }).handleUpdate)
      | .ok false => Outcome.ok s.handleUpdate

end EntityAttribute

/-- Argument object of the constructor; a missing property is `undefined`. -/
structure Config where
  name : JsVal
  value : JsVal
  updateValue : JsVal
  updateSpeed : JsVal
  updateType : JsVal
  deriving DecidableEq

/-- Default of a destructured parameter: used when the property is `undefined`. -/
def withDefault (v dflt : JsVal) : JsVal :=
  if v = JsVal.undefined then dflt else v

/-- Object under construction before any assignment: every property `undefined`. -/
def EntityAttribute.blank : EntityAttribute where
  propName := JsVal.undefined
  propValue := JsVal.undefined
  propInitialValue := JsVal.undefined
  propInitialUpdateValue := JsVal.undefined
  propInitialUpdateSpeed := JsVal.undefined
  propInitialUpdateType := JsVal.undefined
  propUpdateValue := JsVal.undefined
  propUpdateSpeed := JsVal.undefined
  propUpdateType := JsVal.undefined
  propUpdateUnsubscribe := Unsubscribe.undefined
  propStartHandlers := []
  propStopHandlers := []
  propChangeHandlers := []
  previousTime := 0
  preventUpdate := false
  pending := 0
  calls := []

/-- Function `SetUpdateHandler`, called once by the constructor: initialises the closure
variables `previousTime` and `preventUpdate`. -/
def EntityAttribute.SetUpdateHandler (self : EntityAttribute) (now : Int) : EntityAttribute :=
  { self with previousTime := now, preventUpdate := false }

/-- Body of the constructor, run on the blank object; `now` is the clock read by
`SetUpdateHandler`. -/
def EntityAttribute.constructorBody (cfg : Config) (now : Int) : Outcome :=
  let name := cfg.name
  let value := cfg.value
  let updateValue := cfg.updateValue
  let updateSpeed := withDefault cfg.updateSpeed JsVal.null
  let updateType := withDefault cfg.updateType UpdateType.None
  if name.typeof ≠ JsType.string ∨ 0 = name.length then
    Outcome.throw EntityAttribute.blank Exception.InvalidName
  else
    ((((({ EntityAttribute.blank with propName := name, propInitialValue := value }).setValue value).andThen
      (fun s => ({ s with propInitialUpdateType := updateType }).setUpdateType updateType)).andThen
      (fun s => ({ s with propInitialUpdateSpeed := updateSpeed }).setUpdateSpeed updateSpeed)).andThen
      (fun s => ({ s with propInitialUpdateValue := updateValue }).setUpdateValue updateValue)).andThen
      (fun s => Outcome.ok
        { s.SetUpdateHandler now with
          propChangeHandlers := [], propStartHandlers := [], propStopHandlers := [] })

/-- The expression `new EntityAttribute(cfg)`: the new object, or the exception thrown. -/
def EntityAttribute.construct (cfg : Config) (now : Int) : Except Exception EntityAttribute :=
  match (EntityAttribute.constructorBody cfg now).thrown with
  | none => .ok (EntityAttribute.constructorBody cfg now).state
  | some e => .error e

/-! ## Operation sequences -/

/-- A call of a public method, or one scheduler tick with its two clock readings. -/
inductive Op where
  | setValue (value : JsVal)
  | setUpdateType (updateType : JsVal)
  | setUpdateSpeed (updateSpeed : JsVal)
  | setUpdateValue (rechargeValue : JsVal)
  | reset
  | startUpdateHandler
  | stopUpdateHandler
  | addStartHandler (callback : JsVal)
  | removeStartHandler (callback : JsVal)
  | registerStopHandler (callback : JsVal)
  | removeStopHandler (callback : JsVal)
  | tick (now now2 : Int)
  deriving DecidableEq

/-- Effect of one operation. -/
def step (should : EntityAttribute → Bool) (s : EntityAttribute) : Op → Outcome
  | .setValue v => s.setValue v
  | .setUpdateType t => s.setUpdateType t
  | .setUpdateSpeed x => s.setUpdateSpeed x
  | .setUpdateValue v => s.setUpdateValue v
  | .reset => s.reset
  | .startUpdateHandler => s.startUpdateHandler
  | .stopUpdateHandler => s.stopUpdateHandler
  | .addStartHandler cb => s.addStartHandler cb
  | .removeStartHandler cb => s.removeStartHandler cb
  | .registerStopHandler cb => s.registerStopHandler cb
  | .removeStopHandler cb => s.removeStopHandler cb
  | .tick now now2 => s.tick should now now2

/-- State after a sequence of operations, each one succeeding or failing; a failed call
leaves the state its throw found. -/
def run (should : EntityAttribute → Bool) (s : EntityAttribute) : List Op → EntityAttribute
  | [] => s
  | op :: ops => run should (step should s op).state ops

/-- The scheduler holds a cancel handle: `startUpdateHandler` stored one and no
`stopUpdateHandler` has cleared it since. -/
@[reducible]
def EntityAttribute.Running (s : EntityAttribute) : Prop :=
  s.propUpdateUnsubscribe = Unsubscribe.closure

/-- The scheduler holds no cancel handle. -/
@[reducible]
def EntityAttribute.Idle (s : EntityAttribute) : Prop :=
  s.propUpdateUnsubscribe ≠ Unsubscribe.closure

/-- The scheduler is active: a tick is queued and the cancellation flag is clear, so the
tick will evaluate and requeue itself. -/
@[reducible]
def EntityAttribute.active (s : EntityAttribute) : Prop :=
  0 < s.pending ∧ s.preventUpdate = false

/-- Scans a history for its latest call of `startUpdateHandler` or `stopUpdateHandler`,
starting from the answer `b` for the empty history: true when that call is a start. -/
def lastCallIsStart (b : Bool) : List Op → Bool
  | [] => b
  | Op.startUpdateHandler :: ops => lastCallIsStart true ops
  | Op.stopUpdateHandler :: ops => lastCallIsStart false ops
  | _ :: ops => lastCallIsStart b ops

/-- In the history `ops`, `startUpdateHandler` was called more recently than any
`stopUpdateHandler`. -/
def startedMoreRecently (ops : List Op) : Bool :=
  lastCallIsStart false ops

/-- The update type after the constructor's default is applied. -/
def Config.type (cfg : Config) : JsVal := withDefault cfg.updateType UpdateType.None

/-- The update speed after the constructor's default is applied. -/
def Config.speed (cfg : Config) : JsVal := withDefault cfg.updateSpeed JsVal.null

/-- Facts that hold of every state reachable from the construction with `cfg`. -/
structure AttrInv (cfg : Config) (s : EntityAttribute) : Prop where
  value_ne_null : s.propValue ≠ JsVal.null
  value_ne_undefined : s.propValue ≠ JsVal.undefined
  value_typeof : s.propValue.typeof = cfg.value.typeof
  cfg_value_ne_null : cfg.value ≠ JsVal.null
  cfg_value_ne_undefined : cfg.value ≠ JsVal.undefined
  initialValue : s.propInitialValue = cfg.value
  initialType : s.propInitialUpdateType = cfg.type
  initialSpeed : s.propInitialUpdateSpeed = cfg.speed
  initialUpdateValue : s.propInitialUpdateValue = cfg.updateValue
  cfg_type_valid : cfg.type = UpdateType.None ∨ cfg.type = UpdateType.Sum ∨
    cfg.type = UpdateType.Set ∨ cfg.type = UpdateType.Push
  type_valid : s.propUpdateType = UpdateType.None ∨ s.propUpdateType = UpdateType.Sum ∨
    s.propUpdateType = UpdateType.Set ∨ s.propUpdateType = UpdateType.Push
  cfg_speed : cfg.type ≠ UpdateType.None →
    ∃ n, cfg.speed.toNumber = .ok n ∧ n.isNaN = false
  cfg_updateValue : cfg.type ≠ UpdateType.None → cfg.updateValue.typeof = cfg.value.typeof
  speed : s.propUpdateSpeed = JsVal.undefined ∨
    ∃ n, s.propUpdateSpeed.toNumber = .ok n ∧ n.isNaN = false
  speed_set : cfg.type ≠ UpdateType.None →
    ∃ n, s.propUpdateSpeed.toNumber = .ok n ∧ n.isNaN = false
  updateValue : s.propUpdateValue = JsVal.undefined ∨
    s.propUpdateValue.typeof = cfg.value.typeof
  updateValue_set : cfg.type ≠ UpdateType.None → s.propUpdateValue.typeof = cfg.value.typeof
  unsub_ne_null : s.preventUpdate = false → s.propUpdateUnsubscribe ≠ Unsubscribe.null
  unsub_undefined : s.preventUpdate = false →
    s.propUpdateUnsubscribe = Unsubscribe.undefined → s.pending = 0

/-- The state a successful construction with `cfg` produces when the clock reads `now`. -/
def EntityAttribute.fresh (cfg : Config) (now : Int) : EntityAttribute :=
  { EntityAttribute.blank with
    propName := cfg.name
    propValue := cfg.value
    propInitialValue := cfg.value
    propInitialUpdateType := cfg.type
    propInitialUpdateSpeed := cfg.speed
    propInitialUpdateValue := cfg.updateValue
    propUpdateType := cfg.type
    propUpdateSpeed := if cfg.type = UpdateType.None then JsVal.undefined else cfg.speed
    propUpdateValue := if cfg.type = UpdateType.None then JsVal.undefined else cfg.updateValue
    previousTime := now }

/-! ## Example attributes -/

/-- The attribute of the specification's example: health 100, set back to 100 once more than
1000 time units have elapsed. -/
def healthConfig : Config where
  name := JsVal.str "health"
  value := JsVal.num (JsNum.fin 100)
  updateValue := JsVal.num (JsNum.fin 100)
  updateSpeed := JsVal.num (JsNum.fin 1000)
  updateType := UpdateType.Set

/-- An attribute constructed with update type `None`, a recharge value and a speed being
supplied all the same. -/
def staminaConfig : Config where
  name := JsVal.str "stamina"
  value := JsVal.num (JsNum.fin 1)
  updateValue := JsVal.num (JsNum.fin 2)
  updateSpeed := JsVal.num (JsNum.fin 3)
  updateType := UpdateType.None

/-- An attribute whose value is a plain object and whose recharge value is `null`. -/
def inventoryConfig : Config where
  name := JsVal.str "inventory"
  value := JsVal.obj 1 JsNum.nan
  updateValue := JsVal.null
  updateSpeed := JsVal.num (JsNum.fin 0)
  updateType := UpdateType.Set

/-- A numeric attribute with the `Sum` policy: mana 10, recharge value 5. -/
def manaConfig : Config where
  name := JsVal.str "mana"
  value := JsVal.num (JsNum.fin 10)
  updateValue := JsVal.num (JsNum.fin 5)
  updateSpeed := JsVal.num (JsNum.fin 0)
  updateType := UpdateType.Sum

/-- A history mixing successful and failing calls with a due tick. -/
def mixedOps : List Op :=
  [Op.setValue (JsVal.num (JsNum.fin 40)), Op.setValue (JsVal.str "full"), Op.setValue JsVal.null,
    Op.addStartHandler (JsVal.func 1), Op.startUpdateHandler, Op.tick 2000 2001,
    Op.setUpdateValue JsVal.undefined, Op.reset, Op.stopUpdateHandler]

/-- A history that starts the scheduler and then switches recharge off. -/
def startThenNoneOps : List Op :=
  [Op.startUpdateHandler, Op.setUpdateType UpdateType.None]

/-- The scheduler state and the handler lists of `t` are those of `s`: cancel handle,
cancellation flag, last-applied timestamp, queued ticks, both handler lists and the record of
handler calls. -/
def EntityAttribute.sameScheduler (s t : EntityAttribute) : Prop :=
  t.propUpdateUnsubscribe = s.propUpdateUnsubscribe ∧ t.preventUpdate = s.preventUpdate ∧
  t.previousTime = s.previousTime ∧ t.pending = s.pending ∧
  t.propStartHandlers = s.propStartHandlers ∧ t.propStopHandlers = s.propStopHandlers ∧
  t.calls = s.calls

/-- The list with every occurrence of `cb` removed and the other entries kept in their
order, as the specification describes the result of a handler removal. -/
def withoutCallback (cb : JsVal) : List JsVal → List JsVal
  | [] => []
  | h :: t => if h = cb then withoutCallback cb t else h :: withoutCallback cb t

/-- Every entry of a handler list is a function, as `addStartHandler` and
`registerStopHandler` ensure. -/
@[reducible]
def allFunctions (l : List JsVal) : Prop :=
  ∀ h ∈ l, h.typeof = JsType.function

/-- The speed check of the constructor as the specification words it: the absolute magnitude
of the speed is a number other than NaN. -/
def Config.speedOk (cfg : Config) : Bool :=
  match cfg.speed.mathAbs with
  | .ok n => !n.isNaN
  | .error _ => false

/-- The conditions under which the specification says construction succeeds. -/
def Config.accepted (cfg : Config) : Prop :=
  (cfg.name.typeof = JsType.string ∧ cfg.name.length ≠ 0) ∧
  (cfg.value ≠ JsVal.null ∧ cfg.value ≠ JsVal.undefined) ∧
  (cfg.type = UpdateType.None ∨ cfg.type = UpdateType.Sum ∨ cfg.type = UpdateType.Set ∨
    cfg.type = UpdateType.Push) ∧
  (cfg.type = UpdateType.None ∨
    (cfg.speedOk = true ∧ cfg.updateValue.typeof = cfg.value.typeof))

/-- The error the specification predicts for a construction: that of the first failing check
in the order name, value, type, speed, recharge value, each with its own code. -/
def Config.firstFailingCheck (cfg : Config) : Option Exception :=
  if cfg.name.typeof ≠ JsType.string ∨ 0 = cfg.name.length then
    some Exception.InvalidName
  else if cfg.value = JsVal.null ∨ cfg.value = JsVal.undefined then
    some Exception.InvalidAttributeValue
  else if ¬ (cfg.type = UpdateType.None ∨ cfg.type = UpdateType.Sum ∨
      cfg.type = UpdateType.Set ∨ cfg.type = UpdateType.Push) then
    some Exception.InvalidRechargeType
  else if cfg.type = UpdateType.None then
    none
  else if cfg.speedOk = false then
    some Exception.InvalidRechargeSpeed
  else if cfg.updateValue.typeof ≠ cfg.value.typeof then
    some Exception.InvalidRechargeValue
  else
    none

/-- The prediction of `Config.firstFailingCheck` with one change: when `Math.abs` itself
throws on the speed (a symbol or a big integer), the speed check raises what `Math.abs`
threw instead of `InvalidRechargeSpeed`. -/
def Config.firstThrown (cfg : Config) : Option Exception :=
  if cfg.name.typeof ≠ JsType.string ∨ 0 = cfg.name.length then
    some Exception.InvalidName
  else if cfg.value = JsVal.null ∨ cfg.value = JsVal.undefined then
    some Exception.InvalidAttributeValue
  else if ¬ (cfg.type = UpdateType.None ∨ cfg.type = UpdateType.Sum ∨
      cfg.type = UpdateType.Set ∨ cfg.type = UpdateType.Push) then
    some Exception.InvalidRechargeType
  else if cfg.type = UpdateType.None then
    none
  else
    match cfg.speed.mathAbs with
    | .error e => some e
    | .ok n =>
      if n.isNaN then
        some Exception.InvalidRechargeSpeed
      else if cfg.updateValue.typeof ≠ cfg.value.typeof then
        some Exception.InvalidRechargeValue
      else
        none

/-- An attribute whose speed is a big integer: cooldown 1, `Set`, recharge value 1,
speed `5n`. -/
def cooldownConfig : Config where
  name := JsVal.str "cooldown"
  value := JsVal.num (JsNum.fin 1)
  updateValue := JsVal.num (JsNum.fin 1)
  updateSpeed := JsVal.bigint 5
  updateType := UpdateType.Set

/-- A history that registers two stop handlers, one of them twice, and one start handler. -/
def registerOps : List Op :=
  [Op.registerStopHandler (JsVal.func 1), Op.registerStopHandler (JsVal.func 2),
    Op.registerStopHandler (JsVal.func 1), Op.addStartHandler (JsVal.func 3)]

theorem JsVal.strictEq_null_iff (v : JsVal) : JsVal.strictEq JsVal.null v = true ↔ v = JsVal.null := by
  cases v <;> simp [JsVal.strictEq]

theorem JsVal.strictEq_fin_iff (q : ℚ) (v : JsVal) :
    JsVal.strictEq (JsVal.num (JsNum.fin q)) v = true ↔ v = JsVal.num (JsNum.fin q) := by
  cases v with
  | num n => cases n <;> simp [JsVal.strictEq, JsNum.strictEq, eq_comm]
  | _ => simp [JsVal.strictEq]

theorem JsVal.typeof_undefined_iff (v : JsVal) : v.typeof = JsType.undefined ↔ v = JsVal.undefined := by
  cases v <;> simp [JsVal.typeof]

theorem JsNum.isNaN_abs (n : JsNum) : n.abs.isNaN = n.isNaN := by
  cases n <;> rfl

theorem JsVal.mathAbs_ok_iff (v : JsVal) :
    (∃ a, v.mathAbs = .ok a ∧ a.isNaN = false) ↔ ∃ n, v.toNumber = .ok n ∧ n.isNaN = false := by
  unfold JsVal.mathAbs
  cases h : v.toNumber with
  | error e => simp
  | ok n => simp [JsNum.isNaN_abs]

theorem indexOf_valid_iff (t : JsVal) :
    indexOf ValidUpdateTypes t = -1 ↔
      ¬ (t = UpdateType.None ∨ t = UpdateType.Sum ∨ t = UpdateType.Set ∨ t = UpdateType.Push) := by
  unfold indexOf ValidUpdateTypes
  by_cases h0 : t = UpdateType.None
  · subst h0; simp [UpdateType.None, List.findIdx?_cons, JsVal.strictEq, JsNum.strictEq]
  by_cases h1 : t = UpdateType.Sum
  · subst h1; simp [UpdateType.None, UpdateType.Sum, List.findIdx?_cons, JsVal.strictEq, JsNum.strictEq]
  by_cases h2 : t = UpdateType.Set
  · subst h2; simp [UpdateType.None, UpdateType.Sum, UpdateType.Set, List.findIdx?_cons, JsVal.strictEq, JsNum.strictEq]
  by_cases h3 : t = UpdateType.Push
  · subst h3; simp [UpdateType.None, UpdateType.Sum, UpdateType.Set, UpdateType.Push, List.findIdx?_cons, JsVal.strictEq, JsNum.strictEq]
  have e0 : JsVal.strictEq UpdateType.None t = false := by
    rw [Bool.eq_false_iff]; intro h; exact h0 ((JsVal.strictEq_fin_iff _ _).1 h)
  have e1 : JsVal.strictEq UpdateType.Sum t = false := by
    rw [Bool.eq_false_iff]; intro h; exact h1 ((JsVal.strictEq_fin_iff _ _).1 h)
  have e2 : JsVal.strictEq UpdateType.Set t = false := by
    rw [Bool.eq_false_iff]; intro h; exact h2 ((JsVal.strictEq_fin_iff _ _).1 h)
  have e3 : JsVal.strictEq UpdateType.Push t = false := by
    rw [Bool.eq_false_iff]; intro h; exact h3 ((JsVal.strictEq_fin_iff _ _).1 h)
  simp [List.findIdx?_cons, e0, e1, e2, e3, h0, h1, h2, h3]

/-! ## Facts about the methods -/

namespace EntityAttribute

theorem isUpdatable_eq_false_iff (s : EntityAttribute) :
    s.isUpdatable = false ↔ s.propUpdateType = UpdateType.None := by
  unfold isUpdatable getUpdateType UpdateType.None
  rw [Bool.not_eq_false', JsVal.strictEq_fin_iff]

theorem strictEq_None_iff (s : EntityAttribute) :
    JsVal.strictEq UpdateType.None s.getUpdateType = true ↔ s.propUpdateType = UpdateType.None := by
  unfold getUpdateType UpdateType.None
  rw [JsVal.strictEq_fin_iff]

theorem strictEq_Set_iff (s : EntityAttribute) :
    JsVal.strictEq UpdateType.Set s.getUpdateType = true ↔ s.propUpdateType = UpdateType.Set := by
  unfold getUpdateType UpdateType.Set
  rw [JsVal.strictEq_fin_iff]

theorem setValue_accept (s : EntityAttribute) (v : JsVal) (h1 : v ≠ JsVal.null)
    (h2 : v ≠ JsVal.undefined)
    (h3 : s.propValue = JsVal.null ∨ s.propValue = JsVal.undefined ∨ s.propValue.typeof = v.typeof) :
    s.setValue v = Outcome.ok { s with propValue := v } := by
  unfold setValue
  have a1 : JsVal.strictEq JsVal.null v = false := by
    rw [Bool.eq_false_iff]; intro h; exact h1 ((JsVal.strictEq_null_iff v).1 h)
  have a2 : ¬ v.typeof = JsType.undefined := fun h => h2 ((JsVal.typeof_undefined_iff v).1 h)
  rw [if_neg (by simp [a1, a2])]
  rw [if_neg]
  rcases h3 with h | h | h
  · simp [h, JsVal.strictEq]
  · simp [h, JsVal.typeof]
  · simp [h]

theorem setValue_reject (s : EntityAttribute) (v : JsVal)
    (h : v = JsVal.null ∨ v = JsVal.undefined ∨
      (s.propValue ≠ JsVal.null ∧ s.propValue ≠ JsVal.undefined ∧ s.propValue.typeof ≠ v.typeof)) :
    s.setValue v = Outcome.throw s Exception.InvalidAttributeValue := by
  unfold setValue
  by_cases c : (JsVal.strictEq JsVal.null v || decide (v.typeof = JsType.undefined)) = true
  · rw [if_pos c]
  · rw [if_neg c]
    have hv1 : v ≠ JsVal.null := by
      intro e; apply c; simp [e, JsVal.strictEq]
    have hv2 : v ≠ JsVal.undefined := by
      intro e; apply c; simp [e, JsVal.typeof]
    rcases h with h | h | ⟨h1, h2, h3⟩
    · exact absurd h hv1
    · exact absurd h hv2
    · rw [if_pos]
      have b1 : JsVal.strictEq JsVal.null s.propValue = false := by
        rw [Bool.eq_false_iff]; intro h; exact h1 ((JsVal.strictEq_null_iff _).1 h)
      have b2 : ¬ s.propValue.typeof = JsType.undefined :=
        fun h => h2 ((JsVal.typeof_undefined_iff _).1 h)
      simp [b1, b2, h3]

theorem setUpdateType_valid (s : EntityAttribute) (t : JsVal)
    (h : t = UpdateType.None ∨ t = UpdateType.Sum ∨ t = UpdateType.Set ∨ t = UpdateType.Push) :
    s.setUpdateType t = Outcome.ok { s with propUpdateType := t } := by
  unfold setUpdateType
  rw [if_neg]
  rw [indexOf_valid_iff]
  exact not_not.2 h

theorem setUpdateType_invalid (s : EntityAttribute) (t : JsVal)
    (h : ¬ (t = UpdateType.None ∨ t = UpdateType.Sum ∨ t = UpdateType.Set ∨ t = UpdateType.Push)) :
    s.setUpdateType t = Outcome.throw s Exception.InvalidRechargeType := by
  unfold setUpdateType
  rw [if_pos ((indexOf_valid_iff t).2 h)]

theorem setUpdateSpeed_none (s : EntityAttribute) (x : JsVal) (h : s.propUpdateType = UpdateType.None) :
    s.setUpdateSpeed x = Outcome.ok s := by
  unfold setUpdateSpeed
  rw [if_pos ((isUpdatable_eq_false_iff s).2 h)]

theorem setUpdateSpeed_cases (s : EntityAttribute) (x : JsVal) :
    (∃ e, s.setUpdateSpeed x = Outcome.throw s e) ∨ s.setUpdateSpeed x = Outcome.ok s ∨
      (s.setUpdateSpeed x = Outcome.ok { s with propUpdateSpeed := x } ∧
        ∃ n, x.toNumber = .ok n ∧ n.isNaN = false) := by
  unfold setUpdateSpeed
  by_cases c : s.isUpdatable = false
  · rw [if_pos c]; exact Or.inr (Or.inl rfl)
  · rw [if_neg c]
    unfold JsVal.mathAbs
    cases hx : x.toNumber with
    | error e => exact Or.inl ⟨e, rfl⟩
    | ok n =>
      by_cases hn : n.isNaN = true
      · simp [JsNum.isNaN_abs, hn]
      · simp [JsNum.isNaN_abs, hn]

theorem setUpdateValue_none (s : EntityAttribute) (v : JsVal) (h : s.propUpdateType = UpdateType.None) :
    s.setUpdateValue v = Outcome.ok s := by
  unfold setUpdateValue
  rw [if_pos ((isUpdatable_eq_false_iff s).2 h)]

theorem setUpdateValue_accept (s : EntityAttribute) (v : JsVal)
    (h : s.propUpdateType ≠ UpdateType.None) (hv : s.propValue.typeof = v.typeof) :
    s.setUpdateValue v = Outcome.ok { s with propUpdateValue := v } := by
  unfold setUpdateValue
  rw [if_neg (fun c => h ((isUpdatable_eq_false_iff s).1 c)), if_neg (not_not.2 hv)]

theorem setUpdateValue_reject (s : EntityAttribute) (v : JsVal)
    (h : s.propUpdateType ≠ UpdateType.None) (hv : s.propValue.typeof ≠ v.typeof) :
    s.setUpdateValue v = Outcome.throw s Exception.InvalidRechargeValue := by
  unfold setUpdateValue
  rw [if_neg (fun c => h ((isUpdatable_eq_false_iff s).1 c)), if_pos hv]

theorem foldl_invoke (l : List JsVal) (s : EntityAttribute) :
    l.foldl invoke s = { s with calls := s.calls ++ l } := by
  induction l generalizing s with
  | nil => simp
  | cons h t ih => rw [List.foldl_cons, ih]; simp [invoke]

end EntityAttribute

theorem Outcome.ok_andThen (s : EntityAttribute) (f : EntityAttribute → Outcome) :
    (Outcome.ok s).andThen f = f s := rfl

theorem Outcome.throw_andThen (s : EntityAttribute) (e : Exception) (f : EntityAttribute → Outcome) :
    (Outcome.throw s e).andThen f = Outcome.throw s e := rfl

namespace EntityAttribute

theorem setUpdateSpeed_updatable (s : EntityAttribute) (x : JsVal)
    (h : s.propUpdateType ≠ UpdateType.None) :
    (∃ e, s.setUpdateSpeed x = Outcome.throw s e) ∨
      (s.setUpdateSpeed x = Outcome.ok { s with propUpdateSpeed := x } ∧
        ∃ n, x.toNumber = .ok n ∧ n.isNaN = false) := by
  unfold setUpdateSpeed
  rw [if_neg (fun c => h ((isUpdatable_eq_false_iff s).1 c))]
  unfold JsVal.mathAbs
  cases hx : x.toNumber with
  | error e => exact Or.inl ⟨e, rfl⟩
  | ok n =>
    by_cases hn : n.isNaN = true
    · simp [JsNum.isNaN_abs, hn]
    · simp [JsNum.isNaN_abs, hn]

theorem constructorBody_cases (cfg : Config) (now : Int) :
    (∃ s e, constructorBody cfg now = Outcome.throw s e) ∨
    (constructorBody cfg now = Outcome.ok (fresh cfg now) ∧
      cfg.value ≠ JsVal.null ∧ cfg.value ≠ JsVal.undefined ∧
      (cfg.type = UpdateType.None ∨ cfg.type = UpdateType.Sum ∨
        cfg.type = UpdateType.Set ∨ cfg.type = UpdateType.Push) ∧
      (cfg.type ≠ UpdateType.None →
        (∃ n, cfg.speed.toNumber = .ok n ∧ n.isNaN = false) ∧
          cfg.updateValue.typeof = cfg.value.typeof)) := by
  unfold constructorBody
  simp only []
  have e1 : withDefault cfg.updateType UpdateType.None = cfg.type := rfl
  have e2 : withDefault cfg.updateSpeed JsVal.null = cfg.speed := rfl
  rw [e1, e2]
  by_cases hname : cfg.name.typeof ≠ JsType.string ∨ 0 = cfg.name.length
  · rw [if_pos hname]; exact Or.inl ⟨_, _, rfl⟩
  rw [if_neg hname]
  by_cases hv : cfg.value = JsVal.null ∨ cfg.value = JsVal.undefined
  · rw [setValue_reject _ _ (by rcases hv with hv | hv; exact Or.inl hv; exact Or.inr (Or.inl hv))]
    simp only [Outcome.throw_andThen]
    exact Or.inl ⟨_, _, rfl⟩
  have hv1 : cfg.value ≠ JsVal.null := fun e => hv (Or.inl e)
  have hv2 : cfg.value ≠ JsVal.undefined := fun e => hv (Or.inr e)
  rw [setValue_accept _ _ hv1 hv2 (Or.inr (Or.inl rfl)), Outcome.ok_andThen]
  by_cases ht : cfg.type = UpdateType.None ∨ cfg.type = UpdateType.Sum ∨
      cfg.type = UpdateType.Set ∨ cfg.type = UpdateType.Push
  swap
  · rw [setUpdateType_invalid _ _ ht]
    simp only [Outcome.throw_andThen]
    exact Or.inl ⟨_, _, rfl⟩
  rw [setUpdateType_valid _ _ ht, Outcome.ok_andThen]
  by_cases hn : cfg.type = UpdateType.None
  · rw [setUpdateSpeed_none _ _ hn, Outcome.ok_andThen, setUpdateValue_none _ _ hn,
      Outcome.ok_andThen]
    refine Or.inr ⟨?_, hv1, hv2, ht, fun c => absurd hn c⟩
    simp [fresh, SetUpdateHandler, blank, hn]
  · rcases setUpdateSpeed_updatable
      { propName := cfg.name, propValue := cfg.value, propInitialValue := cfg.value,
        propInitialUpdateValue := blank.propInitialUpdateValue,
        propInitialUpdateSpeed := cfg.speed,
        propInitialUpdateType := cfg.type,
        propUpdateValue := blank.propUpdateValue, propUpdateSpeed := blank.propUpdateSpeed,
        propUpdateType := cfg.type, propUpdateUnsubscribe := blank.propUpdateUnsubscribe,
        propStartHandlers := blank.propStartHandlers, propStopHandlers := blank.propStopHandlers,
        propChangeHandlers := blank.propChangeHandlers, previousTime := blank.previousTime,
        preventUpdate := blank.preventUpdate, pending := blank.pending,
        calls := blank.calls } cfg.speed hn with ⟨e, c⟩ | ⟨c, hs⟩
    · rw [c]; simp only [Outcome.throw_andThen]; exact Or.inl ⟨_, _, rfl⟩
    · rw [c, Outcome.ok_andThen]
      by_cases hu : cfg.value.typeof = cfg.updateValue.typeof
      · rw [setUpdateValue_accept _ _ hn hu, Outcome.ok_andThen]
        refine Or.inr ⟨?_, hv1, hv2, ht, fun _ => ⟨hs, hu.symm⟩⟩
        simp [fresh, SetUpdateHandler, blank, hn]
      · rw [setUpdateValue_reject _ _ hn hu]
        simp only [Outcome.throw_andThen]; exact Or.inl ⟨_, _, rfl⟩

theorem construct_ok (cfg : Config) (now : Int) (a : EntityAttribute)
    (h : construct cfg now = .ok a) :
    a = fresh cfg now ∧
    cfg.value ≠ JsVal.null ∧ cfg.value ≠ JsVal.undefined ∧
    (cfg.type = UpdateType.None ∨ cfg.type = UpdateType.Sum ∨
      cfg.type = UpdateType.Set ∨ cfg.type = UpdateType.Push) ∧
    (cfg.type ≠ UpdateType.None →
      (∃ n, cfg.speed.toNumber = .ok n ∧ n.isNaN = false) ∧
        cfg.updateValue.typeof = cfg.value.typeof) := by
  unfold construct at h
  rcases constructorBody_cases cfg now with ⟨s, e, c⟩ | ⟨c, facts⟩
  · rw [c] at h; simp [Outcome.throw] at h
  · rw [c] at h; simp [Outcome.ok] at h; exact ⟨h.symm, facts⟩

end EntityAttribute

theorem Outcome.andThen_state_of (P : EntityAttribute → Prop) (o : Outcome)
    (f : EntityAttribute → Outcome) (h : P o.state) (hf : ∀ s, P s → P (f s).state) :
    P (o.andThen f).state := by
  unfold Outcome.andThen
  cases o.thrown with
  | none => exact hf _ h
  | some e => exact h

namespace EntityAttribute

theorem setValue_cases (s : EntityAttribute) (v : JsVal) :
    s.setValue v = Outcome.throw s Exception.InvalidAttributeValue ∨
      (s.setValue v = Outcome.ok { s with propValue := v } ∧ v ≠ JsVal.null ∧
        v ≠ JsVal.undefined ∧
        (s.propValue = JsVal.null ∨ s.propValue = JsVal.undefined ∨
          s.propValue.typeof = v.typeof)) := by
  by_cases h1 : v = JsVal.null
  · exact Or.inl (setValue_reject s v (Or.inl h1))
  by_cases h2 : v = JsVal.undefined
  · exact Or.inl (setValue_reject s v (Or.inr (Or.inl h2)))
  by_cases h3 : s.propValue = JsVal.null ∨ s.propValue = JsVal.undefined ∨
      s.propValue.typeof = v.typeof
  · exact Or.inr ⟨setValue_accept s v h1 h2 h3, h1, h2, h3⟩
  · refine Or.inl (setValue_reject s v (Or.inr (Or.inr ⟨?_, ?_, ?_⟩)))
    · exact fun e => h3 (Or.inl e)
    · exact fun e => h3 (Or.inr (Or.inl e))
    · exact fun e => h3 (Or.inr (Or.inr e))

theorem setUpdateType_cases (s : EntityAttribute) (t : JsVal) :
    s.setUpdateType t = Outcome.throw s Exception.InvalidRechargeType ∨
      (s.setUpdateType t = Outcome.ok { s with propUpdateType := t } ∧
        (t = UpdateType.None ∨ t = UpdateType.Sum ∨ t = UpdateType.Set ∨ t = UpdateType.Push)) := by
  by_cases h : t = UpdateType.None ∨ t = UpdateType.Sum ∨ t = UpdateType.Set ∨ t = UpdateType.Push
  · exact Or.inr ⟨setUpdateType_valid s t h, h⟩
  · exact Or.inl (setUpdateType_invalid s t h)

theorem setUpdateValue_cases (s : EntityAttribute) (v : JsVal) :
    s.setUpdateValue v = Outcome.throw s Exception.InvalidRechargeValue ∨
      s.setUpdateValue v = Outcome.ok s ∨
      (s.setUpdateValue v = Outcome.ok { s with propUpdateValue := v } ∧
        s.propValue.typeof = v.typeof) := by
  by_cases h : s.propUpdateType = UpdateType.None
  · exact Or.inr (Or.inl (setUpdateValue_none s v h))
  by_cases hv : s.propValue.typeof = v.typeof
  · exact Or.inr (Or.inr ⟨setUpdateValue_accept s v h hv, hv⟩)
  · exact Or.inl (setUpdateValue_reject s v h hv)

theorem startUpdateHandler_none (s : EntityAttribute) (h : s.propUpdateType = UpdateType.None) :
    s.startUpdateHandler = Outcome.ok s := by
  unfold startUpdateHandler
  rw [if_pos ((strictEq_None_iff s).2 h)]

theorem startUpdateHandler_updatable (s : EntityAttribute) (h : s.propUpdateType ≠ UpdateType.None) :
    s.startUpdateHandler = Outcome.ok { s with
      pending := s.pending + 1
      propUpdateUnsubscribe := Unsubscribe.closure
      calls := s.calls ++ s.propStartHandlers } := by
  unfold startUpdateHandler
  rw [if_neg (fun c => h ((strictEq_None_iff s).1 c))]
  simp only [TriggerStartHandlers, foldl_invoke, handleUpdate]

theorem stopUpdateHandler_idle (s : EntityAttribute)
    (h : s.propUpdateUnsubscribe ≠ Unsubscribe.closure) :
    s.stopUpdateHandler = Outcome.ok s := by
  unfold stopUpdateHandler
  rw [if_pos]
  cases hu : s.propUpdateUnsubscribe <;> simp_all [Unsubscribe.typeof]

theorem stopUpdateHandler_running (s : EntityAttribute)
    (h : s.propUpdateUnsubscribe = Unsubscribe.closure) :
    s.stopUpdateHandler = Outcome.ok { s with
      preventUpdate := true
      propUpdateUnsubscribe := Unsubscribe.null
      calls := s.calls ++ s.propStopHandlers } := by
  unfold stopUpdateHandler
  rw [if_neg (by simp [h, Unsubscribe.typeof])]
  simp only [TriggerStopHandlers, foldl_invoke, cancel]

end EntityAttribute

/-! ## The invariant -/

theorem AttrInv.of_eq {cfg : Config} {s t : EntityAttribute} (h : AttrInv cfg s)
    (e1 : t.propValue = s.propValue) (e2 : t.propInitialValue = s.propInitialValue)
    (e3 : t.propInitialUpdateType = s.propInitialUpdateType)
    (e4 : t.propInitialUpdateSpeed = s.propInitialUpdateSpeed)
    (e5 : t.propInitialUpdateValue = s.propInitialUpdateValue)
    (e6 : t.propUpdateType = s.propUpdateType) (e7 : t.propUpdateSpeed = s.propUpdateSpeed)
    (e8 : t.propUpdateValue = s.propUpdateValue) (e9 : t.preventUpdate = s.preventUpdate)
    (e10 : t.propUpdateUnsubscribe = s.propUpdateUnsubscribe) (e11 : t.pending = s.pending) :
    AttrInv cfg t := by
  obtain ⟨a1, a2, a3, a4, a5, a6, a7, a8, a9, a10, a11, a12, a13, a14, a15, a16, a17, a18, a19⟩ := h
  constructor
  all_goals (first
    | assumption
    | (simp only [e1, e2, e3, e4, e5, e6, e7, e8, e9, e10, e11]; assumption))

theorem AttrInv.fresh (cfg : Config) (now : Int)
    (hv1 : cfg.value ≠ JsVal.null) (hv2 : cfg.value ≠ JsVal.undefined)
    (ht : cfg.type = UpdateType.None ∨ cfg.type = UpdateType.Sum ∨
      cfg.type = UpdateType.Set ∨ cfg.type = UpdateType.Push)
    (hs : cfg.type ≠ UpdateType.None →
      (∃ n, cfg.speed.toNumber = .ok n ∧ n.isNaN = false) ∧
        cfg.updateValue.typeof = cfg.value.typeof) :
    AttrInv cfg (EntityAttribute.fresh cfg now) := by
  constructor
  · exact hv1
  · exact hv2
  · rfl
  · exact hv1
  · exact hv2
  · rfl
  · rfl
  · rfl
  · rfl
  · exact ht
  · exact ht
  · exact fun h => (hs h).1
  · exact fun h => (hs h).2
  · by_cases h : cfg.type = UpdateType.None
    · left; simp [EntityAttribute.fresh, h]
    · right; simpa [EntityAttribute.fresh, h] using (hs h).1
  · intro h; simpa [EntityAttribute.fresh, h] using (hs h).1
  · by_cases h : cfg.type = UpdateType.None
    · left; simp [EntityAttribute.fresh, h]
    · right; simpa [EntityAttribute.fresh, h] using (hs h).2
  · intro h; simpa [EntityAttribute.fresh, h] using (hs h).2
  · intro _; simp [EntityAttribute.fresh, EntityAttribute.blank]
  · intro _ _; simp [EntityAttribute.fresh, EntityAttribute.blank]

theorem AttrInv.setValue {cfg : Config} {s : EntityAttribute} (h : AttrInv cfg s) (v : JsVal) :
    AttrInv cfg (s.setValue v).state := by
  rcases EntityAttribute.setValue_cases s v with c | ⟨c, h1, h2, h3⟩
  · rw [c]; exact h
  · rw [c]
    have ht : s.propValue.typeof = v.typeof := by
      rcases h3 with h3 | h3 | h3
      · exact absurd h3 h.value_ne_null
      · exact absurd h3 h.value_ne_undefined
      · exact h3
    exact { h with
      value_ne_null := h1
      value_ne_undefined := h2
      value_typeof := by show v.typeof = _; rw [← ht]; exact h.value_typeof }

theorem AttrInv.setUpdateType {cfg : Config} {s : EntityAttribute} (h : AttrInv cfg s) (t : JsVal) :
    AttrInv cfg (s.setUpdateType t).state := by
  rcases EntityAttribute.setUpdateType_cases s t with c | ⟨c, ht⟩
  · rw [c]; exact h
  · rw [c]; exact { h with type_valid := ht }

theorem AttrInv.setUpdateSpeed {cfg : Config} {s : EntityAttribute} (h : AttrInv cfg s) (x : JsVal) :
    AttrInv cfg (s.setUpdateSpeed x).state := by
  rcases EntityAttribute.setUpdateSpeed_cases s x with ⟨e, c⟩ | c | ⟨c, hx⟩
  · rw [c]; exact h
  · rw [c]; exact h
  · rw [c]; exact { h with speed := Or.inr hx, speed_set := fun _ => hx }

theorem AttrInv.setUpdateValue {cfg : Config} {s : EntityAttribute} (h : AttrInv cfg s) (v : JsVal) :
    AttrInv cfg (s.setUpdateValue v).state := by
  rcases EntityAttribute.setUpdateValue_cases s v with c | c | ⟨c, hv⟩
  · rw [c]; exact h
  · rw [c]; exact h
  · rw [c]
    have e : v.typeof = cfg.value.typeof := by rw [← hv]; exact h.value_typeof
    exact { h with updateValue := Or.inr e, updateValue_set := fun _ => e }

theorem AttrInv.reset {cfg : Config} {s : EntityAttribute} (h : AttrInv cfg s) :
    AttrInv cfg s.reset.state := by
  unfold EntityAttribute.reset
  apply Outcome.andThen_state_of (AttrInv cfg)
  · apply Outcome.andThen_state_of (AttrInv cfg)
    · apply Outcome.andThen_state_of (AttrInv cfg)
      · exact h.setValue _
      · intro s hs; exact hs.setUpdateType _
    · intro s hs; exact hs.setUpdateSpeed _
  · intro s hs; exact hs.setUpdateValue _

theorem AttrInv.startUpdateHandler {cfg : Config} {s : EntityAttribute} (h : AttrInv cfg s) :
    AttrInv cfg s.startUpdateHandler.state := by
  by_cases c : s.propUpdateType = UpdateType.None
  · rw [EntityAttribute.startUpdateHandler_none s c]; exact h
  · rw [EntityAttribute.startUpdateHandler_updatable s c]
    exact { h with
      unsub_ne_null := fun _ => by simp [Outcome.ok]
      unsub_undefined := fun _ => by simp [Outcome.ok] }

theorem AttrInv.stopUpdateHandler {cfg : Config} {s : EntityAttribute} (h : AttrInv cfg s) :
    AttrInv cfg s.stopUpdateHandler.state := by
  by_cases c : s.propUpdateUnsubscribe = Unsubscribe.closure
  · rw [EntityAttribute.stopUpdateHandler_running s c]
    exact { h with
      unsub_ne_null := fun e => by simp [Outcome.ok] at e
      unsub_undefined := fun e => by simp [Outcome.ok] at e }
  · rw [EntityAttribute.stopUpdateHandler_idle s c]; exact h

namespace EntityAttribute

theorem tick_idle (should : EntityAttribute → Bool) (s : EntityAttribute) (now now2 : Int)
    (hp : s.pending = 0) : s.tick should now now2 = Outcome.ok s := by
  unfold tick; rw [if_pos hp]

theorem tick_cancelled (should : EntityAttribute → Bool) (s : EntityAttribute) (now now2 : Int)
    (hp : s.pending ≠ 0) (hc : s.preventUpdate = true) :
    s.tick should now now2 = Outcome.ok { s with pending := s.pending - 1 } := by
  unfold tick; rw [if_neg hp]; simp only []; rw [if_pos hc]

theorem tick_error (should : EntityAttribute → Bool) (s : EntityAttribute) (now now2 : Int)
    (hp : s.pending ≠ 0) (hc : s.preventUpdate = false) (e : Exception)
    (hd : due should s now = .error e) :
    s.tick should now now2 = Outcome.throw { s with pending := s.pending - 1 } e := by
  unfold tick; rw [if_neg hp]; simp only []; rw [if_neg (by simp [hc]), hd]

theorem tick_not_due (should : EntityAttribute → Bool) (s : EntityAttribute) (now now2 : Int)
    (hp : s.pending ≠ 0) (hc : s.preventUpdate = false) (hd : due should s now = .ok false) :
    s.tick should now now2 = Outcome.ok { s with pending := s.pending - 1 + 1 } := by
  unfold tick; rw [if_neg hp]; simp only []; rw [if_neg (by simp [hc]), hd]; rfl

theorem tick_due_other (should : EntityAttribute → Bool) (s : EntityAttribute) (now now2 : Int)
    (hp : s.pending ≠ 0) (hc : s.preventUpdate = false) (hd : due should s now = .ok true)
    (ht : s.propUpdateType ≠ UpdateType.Set) :
    s.tick should now now2 =
      Outcome.ok { s with pending := s.pending - 1 + 1, previousTime := now2 } := by
  unfold tick; rw [if_neg hp]; simp only []; rw [if_neg (by simp [hc]), hd]
  simp only []
  rw [if_neg (show ¬ (JsVal.strictEq UpdateType.Set
    (getUpdateType { s with pending := s.pending - 1 }) = true) from
    fun c => ht ((strictEq_Set_iff _).1 c))]
  rfl

theorem tick_due_set_accept (should : EntityAttribute → Bool) (s : EntityAttribute)
    (now now2 : Int) (hp : s.pending ≠ 0) (hc : s.preventUpdate = false)
    (hd : due should s now = .ok true) (ht : s.propUpdateType = UpdateType.Set)
    (h1 : s.propUpdateValue ≠ JsVal.null) (h2 : s.propUpdateValue ≠ JsVal.undefined)
    (h3 : s.propValue = JsVal.null ∨ s.propValue = JsVal.undefined ∨
      s.propValue.typeof = s.propUpdateValue.typeof) :
    s.tick should now now2 =
      Outcome.ok { s with
        propValue := s.propUpdateValue, pending := s.pending - 1 + 1, previousTime := now2 } := by
  unfold tick; rw [if_neg hp]; simp only []; rw [if_neg (by simp [hc]), hd]
  simp only []
  rw [if_pos (show JsVal.strictEq UpdateType.Set
    (getUpdateType { s with pending := s.pending - 1 }) = true from (strictEq_Set_iff _).2 ht)]
  show (setValue { s with pending := s.pending - 1 } s.propUpdateValue).andThen _ = _
  rw [setValue_accept { s with pending := s.pending - 1 } s.propUpdateValue h1 h2 h3]
  rfl

theorem tick_due_set_reject (should : EntityAttribute → Bool) (s : EntityAttribute)
    (now now2 : Int) (hp : s.pending ≠ 0) (hc : s.preventUpdate = false)
    (hd : due should s now = .ok true) (ht : s.propUpdateType = UpdateType.Set)
    (h : s.propUpdateValue = JsVal.null ∨ s.propUpdateValue = JsVal.undefined ∨
      (s.propValue ≠ JsVal.null ∧ s.propValue ≠ JsVal.undefined ∧
        s.propValue.typeof ≠ s.propUpdateValue.typeof)) :
    s.tick should now now2 =
      Outcome.throw { s with pending := s.pending - 1 } Exception.InvalidAttributeValue := by
  unfold tick; rw [if_neg hp]; simp only []; rw [if_neg (by simp [hc]), hd]
  simp only []
  rw [if_pos (show JsVal.strictEq UpdateType.Set
    (getUpdateType { s with pending := s.pending - 1 }) = true from (strictEq_Set_iff _).2 ht)]
  show (setValue { s with pending := s.pending - 1 } s.propUpdateValue).andThen _ = _
  rw [setValue_reject { s with pending := s.pending - 1 } s.propUpdateValue h]
  rfl

end EntityAttribute

theorem AttrInv.requeue {cfg : Config} {s : EntityAttribute} (h : AttrInv cfg s)
    (hp : s.pending ≠ 0) (n : Nat) (t : Int) :
    AttrInv cfg { s with pending := n, previousTime := t } :=
  { h with unsub_undefined := fun a b => absurd (h.unsub_undefined a b) hp }

theorem AttrInv.tick {cfg : Config} {s : EntityAttribute} (h : AttrInv cfg s)
    (should : EntityAttribute → Bool) (now now2 : Int) :
    AttrInv cfg (s.tick should now now2).state := by
  by_cases hp : s.pending = 0
  · rw [EntityAttribute.tick_idle should s now now2 hp]; exact h
  cases hc : s.preventUpdate with
  | true =>
    rw [EntityAttribute.tick_cancelled should s now now2 hp hc]
    exact h.requeue hp _ s.previousTime
  | false =>
    cases hd : EntityAttribute.due should s now with
    | error e =>
      rw [EntityAttribute.tick_error should s now now2 hp hc e hd]
      exact h.requeue hp _ s.previousTime
    | ok d =>
      cases d with
      | false =>
        rw [EntityAttribute.tick_not_due should s now now2 hp hc hd]
        exact h.requeue hp _ s.previousTime
      | true =>
        by_cases ht : s.propUpdateType = UpdateType.Set
        · rcases EntityAttribute.setValue_cases s s.propUpdateValue with c | ⟨c, h1, h2, h3⟩
          · have hr : s.propUpdateValue = JsVal.null ∨ s.propUpdateValue = JsVal.undefined ∨
                (s.propValue ≠ JsVal.null ∧ s.propValue ≠ JsVal.undefined ∧
                  s.propValue.typeof ≠ s.propUpdateValue.typeof) := by
              by_contra hn
              push_neg at hn
              have h3 : s.propValue.typeof = s.propUpdateValue.typeof :=
                hn.2.2 h.value_ne_null h.value_ne_undefined
              rw [EntityAttribute.setValue_accept s _ hn.1 hn.2.1 (Or.inr (Or.inr h3))] at c
              simp [Outcome.ok, Outcome.throw] at c
            rw [EntityAttribute.tick_due_set_reject should s now now2 hp hc hd ht hr]
            exact h.requeue hp _ s.previousTime
          · rw [EntityAttribute.tick_due_set_accept should s now now2 hp hc hd ht h1 h2 h3]
            have hv := h.setValue s.propUpdateValue
            rw [c] at hv
            exact AttrInv.requeue (s := { s with propValue := s.propUpdateValue }) hv hp _ now2
        · rw [EntityAttribute.tick_due_other should s now now2 hp hc hd ht]
          exact h.requeue hp _ now2

theorem AttrInv.of_step {cfg : Config} {s : EntityAttribute} (h : AttrInv cfg s)
    (should : EntityAttribute → Bool) (op : Op) : AttrInv cfg (step should s op).state := by
  cases op with
  | setValue v => exact h.setValue v
  | setUpdateType t => exact h.setUpdateType t
  | setUpdateSpeed x => exact h.setUpdateSpeed x
  | setUpdateValue v => exact h.setUpdateValue v
  | reset => exact h.reset
  | startUpdateHandler => exact h.startUpdateHandler
  | stopUpdateHandler => exact h.stopUpdateHandler
  | addStartHandler cb =>
    show AttrInv cfg (s.addStartHandler cb).state
    unfold EntityAttribute.addStartHandler
    split_ifs
    · exact h
    · exact h.of_eq rfl rfl rfl rfl rfl rfl rfl rfl rfl rfl rfl
  | removeStartHandler cb => exact h.of_eq rfl rfl rfl rfl rfl rfl rfl rfl rfl rfl rfl
  | registerStopHandler cb =>
    show AttrInv cfg (s.registerStopHandler cb).state
    unfold EntityAttribute.registerStopHandler
    split_ifs
    · exact h
    · exact h.of_eq rfl rfl rfl rfl rfl rfl rfl rfl rfl rfl rfl
  | removeStopHandler cb => exact h.of_eq rfl rfl rfl rfl rfl rfl rfl rfl rfl rfl rfl
  | tick now now2 => exact h.tick should now now2

theorem AttrInv.of_run {cfg : Config} (should : EntityAttribute → Bool) (ops : List Op) :
    ∀ {s : EntityAttribute}, AttrInv cfg s → AttrInv cfg (run should s ops) := by
  induction ops with
  | nil => intro s h; exact h
  | cons op ops ih => intro s h; exact ih (h.of_step should op)

theorem AttrInv.of_construct {cfg : Config} {now : Int} {a : EntityAttribute}
    (h : EntityAttribute.construct cfg now = .ok a) : AttrInv cfg a := by
  obtain ⟨e, hv1, hv2, ht, hs⟩ := EntityAttribute.construct_ok cfg now a h
  rw [e]
  exact AttrInv.fresh cfg now hv1 hv2 ht hs

theorem AttrInv.reachable {cfg : Config} {now : Int} {a : EntityAttribute}
    (should : EntityAttribute → Bool) (ops : List Op)
    (h : EntityAttribute.construct cfg now = .ok a) : AttrInv cfg (run should a ops) :=
  AttrInv.of_run should ops (AttrInv.of_construct h)

namespace EntityAttribute

end EntityAttribute

/-! ## The scheduler and the call history -/

theorem not_active_of_idle {cfg : Config} {s : EntityAttribute} (h : AttrInv cfg s)
    (hu : s.propUpdateUnsubscribe ≠ Unsubscribe.closure) : ¬ s.active := by
  rintro ⟨hp, hc⟩
  have h1 := h.unsub_ne_null hc
  have h2 := h.unsub_undefined hc
  cases hx : s.propUpdateUnsubscribe with
  | undefined => have := h2 hx; omega
  | closure => exact hu hx
  | null => exact h1 hx

namespace EntityAttribute

theorem setValue_sched (s : EntityAttribute) (v : JsVal) :
    (s.setValue v).state.pending = s.pending ∧
      (s.setValue v).state.preventUpdate = s.preventUpdate := by
  rcases setValue_cases s v with c | ⟨c, -⟩ <;> rw [c] <;> exact ⟨rfl, rfl⟩

theorem setUpdateType_sched (s : EntityAttribute) (t : JsVal) :
    (s.setUpdateType t).state.pending = s.pending ∧
      (s.setUpdateType t).state.preventUpdate = s.preventUpdate := by
  rcases setUpdateType_cases s t with c | ⟨c, -⟩ <;> rw [c] <;> exact ⟨rfl, rfl⟩

theorem setUpdateSpeed_sched (s : EntityAttribute) (x : JsVal) :
    (s.setUpdateSpeed x).state.pending = s.pending ∧
      (s.setUpdateSpeed x).state.preventUpdate = s.preventUpdate := by
  rcases setUpdateSpeed_cases s x with ⟨e, c⟩ | c | ⟨c, -⟩ <;> rw [c] <;> exact ⟨rfl, rfl⟩

theorem setUpdateValue_sched (s : EntityAttribute) (v : JsVal) :
    (s.setUpdateValue v).state.pending = s.pending ∧
      (s.setUpdateValue v).state.preventUpdate = s.preventUpdate := by
  rcases setUpdateValue_cases s v with c | c | ⟨c, -⟩ <;> rw [c] <;> exact ⟨rfl, rfl⟩

theorem reset_sched (s : EntityAttribute) :
    s.reset.state.pending = s.pending ∧ s.reset.state.preventUpdate = s.preventUpdate := by
  unfold reset
  apply Outcome.andThen_state_of
    (fun t => t.pending = s.pending ∧ t.preventUpdate = s.preventUpdate)
  · apply Outcome.andThen_state_of
      (fun t => t.pending = s.pending ∧ t.preventUpdate = s.preventUpdate)
    · apply Outcome.andThen_state_of
        (fun t => t.pending = s.pending ∧ t.preventUpdate = s.preventUpdate)
      · exact setValue_sched s _
      · intro t ht
        exact ⟨(setUpdateType_sched t _).1.trans ht.1, (setUpdateType_sched t _).2.trans ht.2⟩
    · intro t ht
      exact ⟨(setUpdateSpeed_sched t _).1.trans ht.1, (setUpdateSpeed_sched t _).2.trans ht.2⟩
  · intro t ht
    exact ⟨(setUpdateValue_sched t _).1.trans ht.1, (setUpdateValue_sched t _).2.trans ht.2⟩

theorem tick_sched (should : EntityAttribute → Bool) (s : EntityAttribute) (now now2 : Int) :
    (s.tick should now now2).state.pending ≤ s.pending ∧
      (s.tick should now now2).state.preventUpdate = s.preventUpdate := by
  by_cases hp : s.pending = 0
  · rw [tick_idle should s now now2 hp]; exact ⟨le_refl _, rfl⟩
  have hle : s.pending - 1 + 1 ≤ s.pending := by omega
  cases hc : s.preventUpdate with
  | true =>
    rw [tick_cancelled should s now now2 hp hc]
    exact ⟨Nat.sub_le _ _, hc⟩
  | false =>
    cases hd : due should s now with
    | error e =>
      rw [tick_error should s now now2 hp hc e hd]
      exact ⟨Nat.sub_le _ _, hc⟩
    | ok d =>
      cases d with
      | false =>
        rw [tick_not_due should s now now2 hp hc hd]
        exact ⟨hle, hc⟩
      | true =>
        by_cases ht : s.propUpdateType = UpdateType.Set
        · by_cases hr : s.propUpdateValue = JsVal.null ∨ s.propUpdateValue = JsVal.undefined ∨
              (s.propValue ≠ JsVal.null ∧ s.propValue ≠ JsVal.undefined ∧
                s.propValue.typeof ≠ s.propUpdateValue.typeof)
          · rw [tick_due_set_reject should s now now2 hp hc hd ht hr]
            exact ⟨Nat.sub_le _ _, hc⟩
          · push_neg at hr
            have h3 : s.propValue = JsVal.null ∨ s.propValue = JsVal.undefined ∨
                s.propValue.typeof = s.propUpdateValue.typeof := by
              by_cases a : s.propValue = JsVal.null
              · exact Or.inl a
              by_cases b : s.propValue = JsVal.undefined
              · exact Or.inr (Or.inl b)
              exact Or.inr (Or.inr (hr.2.2 a b))
            rw [tick_due_set_accept should s now now2 hp hc hd ht hr.1 hr.2.1 h3]
            exact ⟨hle, hc⟩
        · rw [tick_due_other should s now now2 hp hc hd ht]
          exact ⟨hle, hc⟩

end EntityAttribute

theorem step_sched (should : EntityAttribute → Bool) (s : EntityAttribute) (op : Op)
    (h1 : op ≠ Op.startUpdateHandler) (h2 : op ≠ Op.stopUpdateHandler) :
    (step should s op).state.pending ≤ s.pending ∧
      (step should s op).state.preventUpdate = s.preventUpdate := by
  cases op with
  | setValue v => exact ⟨le_of_eq (s.setValue_sched v).1, (s.setValue_sched v).2⟩
  | setUpdateType t => exact ⟨le_of_eq (s.setUpdateType_sched t).1, (s.setUpdateType_sched t).2⟩
  | setUpdateSpeed x => exact ⟨le_of_eq (s.setUpdateSpeed_sched x).1, (s.setUpdateSpeed_sched x).2⟩
  | setUpdateValue v => exact ⟨le_of_eq (s.setUpdateValue_sched v).1, (s.setUpdateValue_sched v).2⟩
  | reset => exact ⟨le_of_eq s.reset_sched.1, s.reset_sched.2⟩
  | startUpdateHandler => exact absurd rfl h1
  | stopUpdateHandler => exact absurd rfl h2
  | addStartHandler cb =>
    show (s.addStartHandler cb).state.pending ≤ _ ∧ (s.addStartHandler cb).state.preventUpdate = _
    unfold EntityAttribute.addStartHandler
    split_ifs <;> exact ⟨le_refl _, rfl⟩
  | removeStartHandler cb => exact ⟨le_refl _, rfl⟩
  | registerStopHandler cb =>
    show (s.registerStopHandler cb).state.pending ≤ _ ∧
      (s.registerStopHandler cb).state.preventUpdate = _
    unfold EntityAttribute.registerStopHandler
    split_ifs <;> exact ⟨le_refl _, rfl⟩
  | removeStopHandler cb => exact ⟨le_refl _, rfl⟩
  | tick now now2 => exact s.tick_sched should now now2

theorem startUpdateHandler_preventUpdate (s : EntityAttribute) :
    s.startUpdateHandler.state.preventUpdate = s.preventUpdate := by
  by_cases c : s.propUpdateType = UpdateType.None
  · rw [EntityAttribute.startUpdateHandler_none s c]; rfl
  · rw [EntityAttribute.startUpdateHandler_updatable s c]; rfl

theorem lastCallIsStart_other (b : Bool) (op : Op) (ops : List Op)
    (h1 : op ≠ Op.startUpdateHandler) (h2 : op ≠ Op.stopUpdateHandler) :
    lastCallIsStart b (op :: ops) = lastCallIsStart b ops := by
  cases op <;> first | rfl | exact absurd rfl h1 | exact absurd rfl h2

theorem active_history {cfg : Config} (should : EntityAttribute → Bool) (ops : List Op) :
    ∀ (s : EntityAttribute) (b : Bool), AttrInv cfg s → (s.active → b = true) →
      (run should s ops).active → lastCallIsStart b ops = true := by
  induction ops with
  | nil => intro s b _ hb ha; exact hb ha
  | cons op ops ih =>
    intro s b hI hb ha
    by_cases h1 : op = Op.startUpdateHandler
    · subst h1
      exact ih _ true (hI.of_step should _) (fun _ => rfl) ha
    by_cases h2 : op = Op.stopUpdateHandler
    · subst h2
      refine ih _ false (hI.of_step should _) ?_ ha
      intro hact
      exfalso
      by_cases c : s.propUpdateUnsubscribe = Unsubscribe.closure
      · have e : (step should s Op.stopUpdateHandler).state.preventUpdate = true := by
          show s.stopUpdateHandler.state.preventUpdate = true
          rw [EntityAttribute.stopUpdateHandler_running s c]; rfl
        rw [hact.2] at e
        exact Bool.false_ne_true e
      · have e : (step should s Op.stopUpdateHandler).state = s := by
          show s.stopUpdateHandler.state = s
          rw [EntityAttribute.stopUpdateHandler_idle s c]; rfl
        rw [e] at hact
        exact not_active_of_idle hI c hact
    · rw [lastCallIsStart_other b op ops h1 h2]
      refine ih _ b (hI.of_step should _) ?_ ha
      intro hact
      have hs := step_sched should s op h1 h2
      exact hb ⟨lt_of_lt_of_le hact.1 hs.1, hs.2 ▸ hact.2⟩

theorem run_append (should : EntityAttribute → Bool) (ops1 ops2 : List Op) :
    ∀ s : EntityAttribute, run should s (ops1 ++ ops2) = run should (run should s ops1) ops2 := by
  induction ops1 with
  | nil => intro s; rfl
  | cons op ops ih => intro s; exact ih _

theorem run_preventUpdate (should : EntityAttribute → Bool) (ops : List Op) :
    ∀ s : EntityAttribute, (∀ op ∈ ops, op ≠ Op.stopUpdateHandler) →
      (run should s ops).preventUpdate = s.preventUpdate := by
  induction ops with
  | nil => intro s _; rfl
  | cons op ops ih =>
    intro s h
    have h2 : op ≠ Op.stopUpdateHandler := h op (List.mem_cons_self _ _)
    have e : (step should s op).state.preventUpdate = s.preventUpdate := by
      by_cases h1 : op = Op.startUpdateHandler
      · subst h1; exact startUpdateHandler_preventUpdate s
      · exact (step_sched should s op h1 h2).2
    show (run should (step should s op).state ops).preventUpdate = _
    rw [ih _ (fun o ho => h o (List.mem_cons_of_mem _ ho)), e]

/-! ## The claims -/

open EntityAttribute

/-- C1. Type stability: after a successful construction and any finite sequence of public
operations and scheduler ticks, each succeeding or failing, `getValue()` is neither `null`
nor `undefined` and its `typeof` is that of the value given to the constructor. -/
theorem C1_type_stability (should : EntityAttribute → Bool) (cfg : Config) (now : Int)
    (a : EntityAttribute) (ops : List Op) (h : construct cfg now = .ok a) :
    (run should a ops).getValue ≠ JsVal.null ∧
    (run should a ops).getValue ≠ JsVal.undefined ∧
    (run should a ops).getValue.typeof = cfg.value.typeof := by
  have hI := AttrInv.reachable should ops h
  exact ⟨hI.value_ne_null, hI.value_ne_undefined, hI.value_typeof⟩

/-- Witness of C1 on the health attribute and a history with failing calls. -/
theorem C1_type_stability_witness :
    construct healthConfig 0 = .ok (fresh healthConfig 0) ∧
    (run shouldUpdate (fresh healthConfig 0) mixedOps).getValue ≠ JsVal.null ∧
    (run shouldUpdate (fresh healthConfig 0) mixedOps).getValue ≠ JsVal.undefined ∧
    (run shouldUpdate (fresh healthConfig 0) mixedOps).getValue.typeof = healthConfig.value.typeof :=
  ⟨rfl, C1_type_stability shouldUpdate healthConfig 0 (fresh healthConfig 0) mixedOps rfl⟩

/-- C2. In every state reachable from a construction, `setValue(v)` throws
`InvalidAttributeValue` exactly when `v` is `null`, `v` is `undefined`, or `typeof v` differs
from the `typeof` of the current value; it returns normally exactly otherwise; when it throws
`getValue()` is unchanged, and when it returns `getValue()` is `v`. -/
theorem C2_setValue_fails_iff (should : EntityAttribute → Bool) (cfg : Config) (now : Int)
    (a : EntityAttribute) (ops : List Op) (h : construct cfg now = .ok a) (v : JsVal) :
    (((run should a ops).setValue v).thrown = some Exception.InvalidAttributeValue ↔
      (v = JsVal.null ∨ v = JsVal.undefined ∨ v.typeof ≠ (run should a ops).getValue.typeof)) ∧
    (((run should a ops).setValue v).thrown = none ↔
      ¬ (v = JsVal.null ∨ v = JsVal.undefined ∨ v.typeof ≠ (run should a ops).getValue.typeof)) ∧
    (((run should a ops).setValue v).thrown ≠ none →
      ((run should a ops).setValue v).state.getValue = (run should a ops).getValue) ∧
    (((run should a ops).setValue v).thrown = none →
      ((run should a ops).setValue v).state.getValue = v) := by
  have hI := AttrInv.reachable should ops h
  generalize run should a ops = s at hI ⊢
  by_cases c : v = JsVal.null ∨ v = JsVal.undefined ∨ v.typeof ≠ s.getValue.typeof
  · have hr : s.setValue v = Outcome.throw s Exception.InvalidAttributeValue := by
      apply setValue_reject
      rcases c with c | c | c
      · exact Or.inl c
      · exact Or.inr (Or.inl c)
      · exact Or.inr (Or.inr ⟨hI.value_ne_null, hI.value_ne_undefined, fun e => c e.symm⟩)
    rw [hr]
    simp [Outcome.throw, c]
  · have c' := c
    push_neg at c'
    have ha : s.setValue v = Outcome.ok { s with propValue := v } :=
      setValue_accept s v c'.1 c'.2.1 (Or.inr (Or.inr c'.2.2.symm))
    rw [ha]
    simpa [Outcome.ok, c, getValue] using c'

/-- Witness of C2: on the health attribute `setValue("full")` is a kind mismatch. -/
theorem C2_setValue_fails_iff_witness :
    construct healthConfig 0 = .ok (fresh healthConfig 0) ∧
    ((run shouldUpdate (fresh healthConfig 0) mixedOps).setValue (JsVal.str "full")).thrown
      = some Exception.InvalidAttributeValue :=
  ⟨rfl, ((C2_setValue_fails_iff shouldUpdate healthConfig 0 (fresh healthConfig 0) mixedOps rfl
    (JsVal.str "full")).1).2 (Or.inr (Or.inr (by decide)))⟩

/-- C5, the code at the failing input. Mana is constructed with value 10, update type `Sum`,
recharge value 5, speed 0, and started; at the tick one time unit later the tick is due, and
it leaves the value at 10 instead of making it 15. -/
theorem C5_sum_tick_leaves_value :
    construct manaConfig 0 = .ok (fresh manaConfig 0) ∧
    (run shouldUpdate (fresh manaConfig 0) [Op.startUpdateHandler]).active ∧
    (run shouldUpdate (fresh manaConfig 0) [Op.startUpdateHandler]).getUpdateType
      = UpdateType.Sum ∧
    due shouldUpdate (run shouldUpdate (fresh manaConfig 0) [Op.startUpdateHandler]) 1
      = .ok true ∧
    ((run shouldUpdate (fresh manaConfig 0) [Op.startUpdateHandler]).tick
      shouldUpdate 1 1).thrown = none ∧
    ((run shouldUpdate (fresh manaConfig 0) [Op.startUpdateHandler]).tick
      shouldUpdate 1 1).state.getValue = JsVal.num (JsNum.fin 10) ∧
    ((run shouldUpdate (fresh manaConfig 0) [Op.startUpdateHandler]).tick
      shouldUpdate 1 1).state.getValue ≠ JsVal.num (JsNum.fin 15) :=
  ⟨rfl, by decide, by decide, rfl, by decide, by decide, by decide⟩

/-- C6, counterexample. Health is constructed with `Set`, started, then `setUpdateType(None)`
is called: the scheduler is still active, `startUpdateHandler` is the latest start or stop
call, and the update type is `None`, so activity is not equivalent to "started more recently
than stopped, and update type not `None`". -/
theorem C6_scheduler_activity_counterexample :
    construct healthConfig 0 = .ok (fresh healthConfig 0) ∧
    (run shouldUpdate (fresh healthConfig 0) startThenNoneOps).active ∧
    startedMoreRecently startThenNoneOps = true ∧
    (run shouldUpdate (fresh healthConfig 0) startThenNoneOps).getUpdateType = UpdateType.None ∧
    ¬ ((run shouldUpdate (fresh healthConfig 0) startThenNoneOps).active ↔
        (startedMoreRecently startThenNoneOps = true ∧
          (run shouldUpdate (fresh healthConfig 0) startThenNoneOps).getUpdateType
            ≠ UpdateType.None)) :=
  ⟨rfl, by decide, by decide, by decide, by decide⟩

/-- C6, amended. In every state reachable from a construction, if the scheduler is active
then `startUpdateHandler` was called more recently than any `stopUpdateHandler`; and when the
history holds no `stopUpdateHandler` call and the update type is not `None`, a call of
`startUpdateHandler` leaves the scheduler active. -/
theorem C6_scheduler_activity (should : EntityAttribute → Bool) (cfg : Config) (now : Int)
    (a : EntityAttribute) (ops : List Op) (h : construct cfg now = .ok a) :
    ((run should a ops).active → startedMoreRecently ops = true) ∧
    ((∀ op ∈ ops, op ≠ Op.stopUpdateHandler) →
      (run should a ops).getUpdateType ≠ UpdateType.None →
      (run should a (ops ++ [Op.startUpdateHandler])).active) := by
  have hA := AttrInv.of_construct h
  have hfresh := (construct_ok cfg now a h).1
  constructor
  · apply active_history should ops a false hA
    intro hact
    rw [hfresh] at hact
    exact absurd hact.1 (by simp [fresh, blank])
  · intro hno ht
    rw [run_append]
    have hprev : (run should a ops).preventUpdate = false := by
      rw [run_preventUpdate should ops a hno, hfresh]; rfl
    show ((run should a ops).startUpdateHandler).state.active
    rw [startUpdateHandler_updatable _ ht]
    exact ⟨Nat.succ_pos _, hprev⟩

/-- Witness of C6 amended: health, one start, is active and was started more recently. -/
theorem C6_scheduler_activity_witness :
    construct healthConfig 0 = .ok (fresh healthConfig 0) ∧
    startedMoreRecently [Op.startUpdateHandler] = true ∧
    (run shouldUpdate (fresh healthConfig 0) ([] ++ [Op.startUpdateHandler])).active :=
  ⟨rfl,
    (C6_scheduler_activity shouldUpdate healthConfig 0 (fresh healthConfig 0)
      [Op.startUpdateHandler] rfl).1 (by decide),
    (C6_scheduler_activity shouldUpdate healthConfig 0 (fresh healthConfig 0) [] rfl).2
      (by simp) (by decide)⟩

/-- C7, counterexample. Stamina is constructed with update type `None` (recharge value 2
supplied); after `setUpdateType(Set)` the update type is not `None` while `getUpdateValue()`
is `undefined`, whose `typeof` differs from that of the value. -/
theorem C7_policy_consistency_counterexample :
    construct staminaConfig 0 = .ok (fresh staminaConfig 0) ∧
    (run shouldUpdate (fresh staminaConfig 0) [Op.setUpdateType UpdateType.Set]).getUpdateType
      ≠ UpdateType.None ∧
    (run shouldUpdate (fresh staminaConfig 0) [Op.setUpdateType UpdateType.Set]).getUpdateValue
      = JsVal.undefined ∧
    (run shouldUpdate (fresh staminaConfig 0)
        [Op.setUpdateType UpdateType.Set]).getUpdateValue.typeof
      ≠ (run shouldUpdate (fresh staminaConfig 0)
        [Op.setUpdateType UpdateType.Set]).getValue.typeof :=
  ⟨rfl, by decide, by decide, by decide⟩

/-- C7, amended. In every state reachable from a construction, `getUpdateValue()` is either
`undefined` or has the `typeof` of `getValue()`; and when the constructor's update type is
not `None` it always has the `typeof` of `getValue()`. -/
theorem C7_policy_consistency (should : EntityAttribute → Bool) (cfg : Config) (now : Int)
    (a : EntityAttribute) (ops : List Op) (h : construct cfg now = .ok a) :
    ((run should a ops).getUpdateValue = JsVal.undefined ∨
      (run should a ops).getUpdateValue.typeof = (run should a ops).getValue.typeof) ∧
    (cfg.type ≠ UpdateType.None →
      (run should a ops).getUpdateValue.typeof = (run should a ops).getValue.typeof) := by
  have hI := AttrInv.reachable should ops h
  constructor
  · rcases hI.updateValue with e | e
    · exact Or.inl e
    · exact Or.inr (e.trans hI.value_typeof.symm)
  · intro hn
    exact (hI.updateValue_set hn).trans hI.value_typeof.symm

/-- Witness of C7 amended: health, constructed with `Set`, after a mixed history. -/
theorem C7_policy_consistency_witness :
    construct healthConfig 0 = .ok (fresh healthConfig 0) ∧
    (run shouldUpdate (fresh healthConfig 0) mixedOps).getUpdateValue.typeof
      = (run shouldUpdate (fresh healthConfig 0) mixedOps).getValue.typeof :=
  ⟨rfl, (C7_policy_consistency shouldUpdate healthConfig 0 (fresh healthConfig 0) mixedOps
    rfl).2 (by decide)⟩

/-- C8. When the current update type is `Sum`, `Set` or `Push`, `setUpdateValue(v)` throws
`InvalidRechargeValue` exactly when `typeof v` differs from the `typeof` of the current value,
returns normally exactly otherwise, and on return `getUpdateValue()` is `v`. -/
theorem C8_setUpdateValue_fails_iff (s : EntityAttribute) (v : JsVal)
    (ht : s.getUpdateType = UpdateType.Sum ∨ s.getUpdateType = UpdateType.Set ∨
      s.getUpdateType = UpdateType.Push) :
    ((s.setUpdateValue v).thrown = some Exception.InvalidRechargeValue ↔
      v.typeof ≠ s.getValue.typeof) ∧
    ((s.setUpdateValue v).thrown = none ↔ v.typeof = s.getValue.typeof) ∧
    ((s.setUpdateValue v).thrown = none → (s.setUpdateValue v).state.getUpdateValue = v) := by
  have hn : s.propUpdateType ≠ UpdateType.None := by
    rcases ht with e | e | e <;>
      (simp only [getUpdateType] at e; rw [e]; decide)
  by_cases c : s.propValue.typeof = v.typeof
  · rw [setUpdateValue_accept s v hn c]
    simp [Outcome.ok, getValue, getUpdateValue, c]
  · rw [setUpdateValue_reject s v hn c]
    have c2 : ¬ v.typeof = s.propValue.typeof := fun e => c e.symm
    simp [Outcome.throw, getValue, c2]

/-- Witness of C8: on health (a number, `Set`) a string recharge value is refused. -/
theorem C8_setUpdateValue_fails_iff_witness :
    (fresh healthConfig 0).getUpdateType = UpdateType.Set ∧
    ((fresh healthConfig 0).setUpdateValue (JsVal.str "full")).thrown
      = some Exception.InvalidRechargeValue :=
  ⟨by decide, (C8_setUpdateValue_fails_iff (fresh healthConfig 0) (JsVal.str "full")
    (Or.inr (Or.inl (by decide)))).1.2 (by decide)⟩

/-- C9. When the current update type is `None`, `setUpdateSpeed(x)` and `setUpdateValue(x)`
return normally for every `x` and leave the whole state unchanged. -/
theorem C9_none_setters_are_noops (s : EntityAttribute) (x : JsVal)
    (ht : s.getUpdateType = UpdateType.None) :
    (s.setUpdateSpeed x).thrown = none ∧ (s.setUpdateSpeed x).state = s ∧
    (s.setUpdateValue x).thrown = none ∧ (s.setUpdateValue x).state = s := by
  rw [setUpdateSpeed_none s x ht, setUpdateValue_none s x ht]
  exact ⟨rfl, rfl, rfl, rfl⟩

/-- Witness of C9: stamina (update type `None`) ignores a symbol, which `Math.abs` would
refuse and whose `typeof` differs from the value's. -/
theorem C9_none_setters_are_noops_witness :
    (fresh staminaConfig 0).getUpdateType = UpdateType.None ∧
    ((fresh staminaConfig 0).setUpdateSpeed (JsVal.symbol 7)).thrown = none ∧
    ((fresh staminaConfig 0).setUpdateSpeed (JsVal.symbol 7)).state = fresh staminaConfig 0 ∧
    ((fresh staminaConfig 0).setUpdateValue (JsVal.symbol 7)).thrown = none ∧
    ((fresh staminaConfig 0).setUpdateValue (JsVal.symbol 7)).state = fresh staminaConfig 0 :=
  ⟨by decide, C9_none_setters_are_noops (fresh staminaConfig 0) (JsVal.symbol 7) (by decide)⟩

namespace EntityAttribute

theorem sameScheduler_refl (s : EntityAttribute) : s.sameScheduler s :=
  ⟨rfl, rfl, rfl, rfl, rfl, rfl, rfl⟩

theorem sameScheduler_trans {s t u : EntityAttribute} (h1 : s.sameScheduler t)
    (h2 : t.sameScheduler u) : s.sameScheduler u := by
  obtain ⟨a1, a2, a3, a4, a5, a6, a7⟩ := h1
  obtain ⟨b1, b2, b3, b4, b5, b6, b7⟩ := h2
  exact ⟨b1.trans a1, b2.trans a2, b3.trans a3, b4.trans a4, b5.trans a5, b6.trans a6,
    b7.trans a7⟩

theorem setValue_frame (s : EntityAttribute) (v : JsVal) :
    s.sameScheduler (s.setValue v).state := by
  rcases setValue_cases s v with c | ⟨c, -⟩ <;> rw [c] <;> exact sameScheduler_refl s

theorem setUpdateType_frame (s : EntityAttribute) (t : JsVal) :
    s.sameScheduler (s.setUpdateType t).state := by
  rcases setUpdateType_cases s t with c | ⟨c, -⟩ <;> rw [c] <;> exact sameScheduler_refl s

theorem setUpdateSpeed_frame (s : EntityAttribute) (x : JsVal) :
    s.sameScheduler (s.setUpdateSpeed x).state := by
  rcases setUpdateSpeed_cases s x with ⟨e, c⟩ | c | ⟨c, -⟩ <;> rw [c] <;>
    exact sameScheduler_refl s

theorem setUpdateValue_frame (s : EntityAttribute) (v : JsVal) :
    s.sameScheduler (s.setUpdateValue v).state := by
  rcases setUpdateValue_cases s v with c | c | ⟨c, -⟩ <;> rw [c] <;> exact sameScheduler_refl s

theorem reset_frame (s : EntityAttribute) : s.sameScheduler s.reset.state := by
  unfold reset
  apply Outcome.andThen_state_of (fun t => s.sameScheduler t)
  · apply Outcome.andThen_state_of (fun t => s.sameScheduler t)
    · apply Outcome.andThen_state_of (fun t => s.sameScheduler t)
      · exact setValue_frame s _
      · intro t ht; exact sameScheduler_trans ht (setUpdateType_frame t _)
    · intro t ht; exact sameScheduler_trans ht (setUpdateSpeed_frame t _)
  · intro t ht; exact sameScheduler_trans ht (setUpdateValue_frame t _)

theorem tick_shape (should : EntityAttribute → Bool) (s : EntityAttribute) (now now2 : Int) :
    ∃ v n t, (s.tick should now now2).state =
      { s with propValue := v, pending := n, previousTime := t } := by
  by_cases hp : s.pending = 0
  · rw [tick_idle should s now now2 hp]; exact ⟨s.propValue, s.pending, s.previousTime, rfl⟩
  rcases Bool.eq_false_or_eq_true s.preventUpdate with hc | hc
  · rw [tick_cancelled should s now now2 hp hc]
    exact ⟨s.propValue, _, s.previousTime, rfl⟩
  · cases hd : due should s now with
    | error e =>
      rw [tick_error should s now now2 hp hc e hd]
      exact ⟨s.propValue, _, s.previousTime, rfl⟩
    | ok d =>
      cases d with
      | false =>
        rw [tick_not_due should s now now2 hp hc hd]
        exact ⟨s.propValue, _, s.previousTime, rfl⟩
      | true =>
        by_cases ht : s.propUpdateType = UpdateType.Set
        · by_cases hr : s.propUpdateValue = JsVal.null ∨ s.propUpdateValue = JsVal.undefined ∨
              (s.propValue ≠ JsVal.null ∧ s.propValue ≠ JsVal.undefined ∧
                s.propValue.typeof ≠ s.propUpdateValue.typeof)
          · rw [tick_due_set_reject should s now now2 hp hc hd ht hr]
            exact ⟨s.propValue, _, s.previousTime, rfl⟩
          · push_neg at hr
            have h3 : s.propValue = JsVal.null ∨ s.propValue = JsVal.undefined ∨
                s.propValue.typeof = s.propUpdateValue.typeof := by
              by_cases a : s.propValue = JsVal.null
              · exact Or.inl a
              by_cases b : s.propValue = JsVal.undefined
              · exact Or.inr (Or.inl b)
              exact Or.inr (Or.inr (hr.2.2 a b))
            rw [tick_due_set_accept should s now now2 hp hc hd ht hr.1 hr.2.1 h3]
            exact ⟨_, _, _, rfl⟩
        · rw [tick_due_other should s now now2 hp hc hd ht]
          exact ⟨s.propValue, _, _, rfl⟩

end EntityAttribute

/-! ## The cancellation flag -/

theorem JsVal.strictEq_func_iff (r : Nat) (v : JsVal) :
    JsVal.strictEq (JsVal.func r) v = true ↔ v = JsVal.func r := by
  cases v <;> simp [JsVal.strictEq, eq_comm]

theorem JsVal.typeof_function_iff (v : JsVal) :
    v.typeof = JsType.function ↔ ∃ r, v = JsVal.func r := by
  cases v <;> simp [JsVal.typeof]

theorem filter_eq_withoutCallback (cb : JsVal) (l : List JsVal) (h : allFunctions l) :
    l.filter (fun handler => !(JsVal.strictEq handler cb)) = withoutCallback cb l := by
  induction l with
  | nil => rfl
  | cons x xs ih =>
    have hx : x.typeof = JsType.function := h x (List.mem_cons_self _ _)
    have hxs : allFunctions xs := fun y hy => h y (List.mem_cons_of_mem _ hy)
    obtain ⟨r, rfl⟩ := (JsVal.typeof_function_iff x).1 hx
    by_cases c : JsVal.func r = cb
    · have e : JsVal.strictEq (JsVal.func r) cb = true := (JsVal.strictEq_func_iff r cb).2 c.symm
      simp only [List.filter, e, Bool.not_true, withoutCallback, if_pos c]
      exact ih hxs
    · have e : JsVal.strictEq (JsVal.func r) cb = false := by
        rw [Bool.eq_false_iff]; intro k; exact c ((JsVal.strictEq_func_iff r cb).1 k).symm
      simp only [List.filter, e, Bool.not_false, withoutCallback, if_neg c]
      rw [ih hxs]

theorem not_mem_withoutCallback (cb : JsVal) (l : List JsVal) : cb ∉ withoutCallback cb l := by
  induction l with
  | nil => simp [withoutCallback]
  | cons x xs ih =>
    unfold withoutCallback
    split_ifs with c
    · exact ih
    · intro hm
      rcases List.mem_cons.1 hm with e | e
      · exact c e.symm
      · exact ih e

theorem withoutCallback_of_not_mem (cb : JsVal) (l : List JsVal) (h : cb ∉ l) :
    withoutCallback cb l = l := by
  induction l with
  | nil => rfl
  | cons x xs ih =>
    unfold withoutCallback
    have c : x ≠ cb := fun e => h (e ▸ List.mem_cons_self _ _)
    rw [if_neg c, ih (fun hm => h (List.mem_cons_of_mem _ hm))]

theorem withoutCallback_eq_filter (cb : JsVal) (l : List JsVal) :
    withoutCallback cb l = l.filter (fun h => decide (h ≠ cb)) := by
  induction l with
  | nil => rfl
  | cons x xs ih =>
    unfold withoutCallback
    by_cases c : x = cb
    · simp [c, ih]
    · simp [c, ih]

theorem allFunctions_append_singleton (l : List JsVal) (cb : JsVal) (h : allFunctions l)
    (hc : cb.typeof = JsType.function) : allFunctions (l ++ [cb]) := by
  intro x hx
  rcases List.mem_append.1 hx with e | e
  · exact h x e
  · rw [List.mem_singleton.1 e]; exact hc

/-! ## The constructor, check by check -/

namespace EntityAttribute

theorem firstThrown_name (cfg : Config)
    (hname : cfg.name.typeof ≠ JsType.string ∨ 0 = cfg.name.length) :
    cfg.firstThrown = some Exception.InvalidName := by
  unfold Config.firstThrown; rw [if_pos hname]

theorem firstThrown_value (cfg : Config)
    (hname : ¬ (cfg.name.typeof ≠ JsType.string ∨ 0 = cfg.name.length))
    (hv : cfg.value = JsVal.null ∨ cfg.value = JsVal.undefined) :
    cfg.firstThrown = some Exception.InvalidAttributeValue := by
  unfold Config.firstThrown; rw [if_neg hname, if_pos hv]

theorem firstThrown_type (cfg : Config)
    (hname : ¬ (cfg.name.typeof ≠ JsType.string ∨ 0 = cfg.name.length))
    (hv : ¬ (cfg.value = JsVal.null ∨ cfg.value = JsVal.undefined))
    (ht : ¬ (cfg.type = UpdateType.None ∨ cfg.type = UpdateType.Sum ∨
      cfg.type = UpdateType.Set ∨ cfg.type = UpdateType.Push)) :
    cfg.firstThrown = some Exception.InvalidRechargeType := by
  unfold Config.firstThrown; rw [if_neg hname, if_neg hv, if_pos ht]

theorem firstThrown_none (cfg : Config)
    (hname : ¬ (cfg.name.typeof ≠ JsType.string ∨ 0 = cfg.name.length))
    (hv : ¬ (cfg.value = JsVal.null ∨ cfg.value = JsVal.undefined))
    (ht : cfg.type = UpdateType.None ∨ cfg.type = UpdateType.Sum ∨
      cfg.type = UpdateType.Set ∨ cfg.type = UpdateType.Push)
    (hn : cfg.type = UpdateType.None) :
    cfg.firstThrown = none := by
  unfold Config.firstThrown; rw [if_neg hname, if_neg hv, if_neg (not_not.2 ht), if_pos hn]

theorem firstThrown_updatable (cfg : Config)
    (hname : ¬ (cfg.name.typeof ≠ JsType.string ∨ 0 = cfg.name.length))
    (hv : ¬ (cfg.value = JsVal.null ∨ cfg.value = JsVal.undefined))
    (ht : cfg.type = UpdateType.None ∨ cfg.type = UpdateType.Sum ∨
      cfg.type = UpdateType.Set ∨ cfg.type = UpdateType.Push)
    (hn : ¬ cfg.type = UpdateType.None) :
    cfg.firstThrown =
      match cfg.speed.mathAbs with
      | .error e => some e
      | .ok n =>
        if n.isNaN then some Exception.InvalidRechargeSpeed
        else if cfg.updateValue.typeof ≠ cfg.value.typeof then
          some Exception.InvalidRechargeValue
        else none := by
  unfold Config.firstThrown
  rw [if_neg hname, if_neg hv, if_neg (not_not.2 ht), if_neg hn]

theorem setUpdateSpeed_error (s : EntityAttribute) (x : JsVal) (e : Exception)
    (h : s.propUpdateType ≠ UpdateType.None) (hx : x.mathAbs = .error e) :
    s.setUpdateSpeed x = Outcome.throw s e := by
  unfold setUpdateSpeed
  rw [if_neg (fun c => h ((isUpdatable_eq_false_iff s).1 c)), hx]

theorem setUpdateSpeed_nan (s : EntityAttribute) (x : JsVal) (n : JsNum)
    (h : s.propUpdateType ≠ UpdateType.None) (hx : x.mathAbs = .ok n) (hn : n.isNaN = true) :
    s.setUpdateSpeed x = Outcome.throw s Exception.InvalidRechargeSpeed := by
  unfold setUpdateSpeed
  rw [if_neg (fun c => h ((isUpdatable_eq_false_iff s).1 c)), hx]
  simp [hn]

theorem setUpdateSpeed_store (s : EntityAttribute) (x : JsVal) (n : JsNum)
    (h : s.propUpdateType ≠ UpdateType.None) (hx : x.mathAbs = .ok n) (hn : n.isNaN = false) :
    s.setUpdateSpeed x = Outcome.ok { s with propUpdateSpeed := x } := by
  unfold setUpdateSpeed
  rw [if_neg (fun c => h ((isUpdatable_eq_false_iff s).1 c)), hx]
  simp [hn]

theorem constructorBody_thrown (cfg : Config) (now : Int) :
    (constructorBody cfg now).thrown = cfg.firstThrown := by
  generalize hF : cfg.firstThrown = F
  unfold constructorBody
  simp only []
  have e1 : withDefault cfg.updateType UpdateType.None = cfg.type := rfl
  have e2 : withDefault cfg.updateSpeed JsVal.null = cfg.speed := rfl
  rw [e1, e2]
  by_cases hname : cfg.name.typeof ≠ JsType.string ∨ 0 = cfg.name.length
  · rw [if_pos hname]
    show some Exception.InvalidName = F
    rw [← hF, firstThrown_name cfg hname]
  rw [if_neg hname]
  by_cases hv : cfg.value = JsVal.null ∨ cfg.value = JsVal.undefined
  · rw [setValue_reject _ _ (by rcases hv with hv | hv; exact Or.inl hv; exact Or.inr (Or.inl hv))]
    simp only [Outcome.throw_andThen]
    show some Exception.InvalidAttributeValue = F
    rw [← hF, firstThrown_value cfg hname hv]
  have hv1 : cfg.value ≠ JsVal.null := fun e => hv (Or.inl e)
  have hv2 : cfg.value ≠ JsVal.undefined := fun e => hv (Or.inr e)
  rw [setValue_accept _ _ hv1 hv2 (Or.inr (Or.inl rfl)), Outcome.ok_andThen]
  by_cases ht : cfg.type = UpdateType.None ∨ cfg.type = UpdateType.Sum ∨
      cfg.type = UpdateType.Set ∨ cfg.type = UpdateType.Push
  swap
  · rw [setUpdateType_invalid _ _ ht]
    simp only [Outcome.throw_andThen]
    show some Exception.InvalidRechargeType = F
    rw [← hF, firstThrown_type cfg hname hv ht]
  rw [setUpdateType_valid _ _ ht, Outcome.ok_andThen]
  by_cases hn : cfg.type = UpdateType.None
  · rw [setUpdateSpeed_none _ _ hn, Outcome.ok_andThen, setUpdateValue_none _ _ hn,
      Outcome.ok_andThen]
    show none = F
    rw [← hF, firstThrown_none cfg hname hv ht hn]
  · have hF2 := firstThrown_updatable cfg hname hv ht hn
    rw [hF] at hF2
    cases hx : cfg.speed.mathAbs with
    | error e =>
      rw [hx] at hF2
      rw [setUpdateSpeed_error _ _ e hn hx]
      simp only [Outcome.throw_andThen]
      show some e = F
      rw [hF2]
    | ok n =>
      rw [hx] at hF2
      rcases Bool.eq_false_or_eq_true n.isNaN with hnan | hnan
      · rw [setUpdateSpeed_nan _ _ n hn hx hnan]
        simp only [Outcome.throw_andThen]
        show some Exception.InvalidRechargeSpeed = F
        rw [hF2]; simp [hnan]
      · rw [setUpdateSpeed_store _ _ n hn hx hnan, Outcome.ok_andThen]
        by_cases hu : cfg.value.typeof = cfg.updateValue.typeof
        · rw [setUpdateValue_accept _ _ hn hu, Outcome.ok_andThen]
          show none = F
          rw [hF2]; simp [hnan, hu]
        · rw [setUpdateValue_reject _ _ hn hu]
          simp only [Outcome.throw_andThen]
          have hu2 : ¬ cfg.updateValue.typeof = cfg.value.typeof := fun e => hu e.symm
          show some Exception.InvalidRechargeValue = F
          rw [hF2]; simp [hnan, hu2]

theorem constructorBody_state (cfg : Config) (now : Int)
    (h : (constructorBody cfg now).thrown = none) :
    (constructorBody cfg now).state = fresh cfg now := by
  rcases constructorBody_cases cfg now with ⟨s, e, c⟩ | ⟨c, -⟩
  · rw [c] at h; simp [Outcome.throw] at h
  · rw [c]; rfl

theorem construct_eq (cfg : Config) (now : Int) :
    construct cfg now =
      match cfg.firstThrown with
      | none => .ok (fresh cfg now)
      | some e => .error e := by
  have h1 := constructorBody_thrown cfg now
  unfold construct
  cases hF : cfg.firstThrown with
  | none =>
    rw [hF] at h1
    rw [h1]
    simp only []
    rw [constructorBody_state cfg now h1]
  | some e =>
    rw [hF] at h1
    rw [h1]

end EntityAttribute

/-! ## The specification's reading of the constructor checks -/

theorem JsVal.mathAbs_error (x : JsVal) (e : Exception) (h : x.mathAbs = .error e) :
    e = Exception.TypeError := by
  cases x <;> simp [JsVal.mathAbs, JsVal.toNumber] at h <;> exact h.symm

theorem Config.accepted_iff (cfg : Config) : cfg.accepted ↔ cfg.firstThrown = none := by
  unfold Config.accepted
  by_cases hname : cfg.name.typeof ≠ JsType.string ∨ 0 = cfg.name.length
  · rw [EntityAttribute.firstThrown_name cfg hname]
    have : ¬ (cfg.name.typeof = JsType.string ∧ cfg.name.length ≠ 0) := by
      rintro ⟨a, b⟩
      rcases hname with c | c
      · exact c a
      · exact b c.symm
    simp [this]
  have hn1 : cfg.name.typeof = JsType.string ∧ cfg.name.length ≠ 0 := by
    push_neg at hname
    exact ⟨hname.1, fun e => hname.2 e.symm⟩
  by_cases hv : cfg.value = JsVal.null ∨ cfg.value = JsVal.undefined
  · rw [EntityAttribute.firstThrown_value cfg hname hv]
    have : ¬ (cfg.value ≠ JsVal.null ∧ cfg.value ≠ JsVal.undefined) := by
      rintro ⟨a, b⟩
      rcases hv with c | c
      · exact a c
      · exact b c
    simp [this]
  have hv1 : cfg.value ≠ JsVal.null ∧ cfg.value ≠ JsVal.undefined :=
    ⟨fun e => hv (Or.inl e), fun e => hv (Or.inr e)⟩
  by_cases ht : cfg.type = UpdateType.None ∨ cfg.type = UpdateType.Sum ∨
      cfg.type = UpdateType.Set ∨ cfg.type = UpdateType.Push
  swap
  · rw [EntityAttribute.firstThrown_type cfg hname hv ht]
    simp [ht]
  by_cases hn : cfg.type = UpdateType.None
  · rw [EntityAttribute.firstThrown_none cfg hname hv ht hn]
    simp only [iff_true]
    exact ⟨hn1, hv1, ht, Or.inl hn⟩
  · rw [EntityAttribute.firstThrown_updatable cfg hname hv ht hn]
    unfold Config.speedOk
    cases hx : cfg.speed.mathAbs with
    | error e => simp [hn]
    | ok n =>
      rcases Bool.eq_false_or_eq_true n.isNaN with hnan | hnan
      · simp [hn, hnan]
      · by_cases hu : cfg.updateValue.typeof = cfg.value.typeof
        · simp only [hnan, hu]
          simp only [Bool.false_eq_true, if_false, ne_eq, not_true_eq_false, iff_true]
          exact ⟨hn1, hv1, ht, Or.inr ⟨by simp, trivial⟩⟩
        · simp [hn, hnan, hu]

theorem Config.firstThrown_eq_firstFailingCheck (cfg : Config)
    (h : ∀ e, cfg.speed.mathAbs ≠ .error e) : cfg.firstThrown = cfg.firstFailingCheck := by
  unfold Config.firstThrown Config.firstFailingCheck Config.speedOk
  cases hx : cfg.speed.mathAbs with
  | error e => exact absurd hx (h e)
  | ok n =>
    rcases Bool.eq_false_or_eq_true n.isNaN with hnan | hnan <;> simp [hnan]

/-! ## Handler lists hold functions -/

theorem step_allFunctions (should : EntityAttribute → Bool) (s : EntityAttribute) (op : Op)
    (h1 : allFunctions s.propStartHandlers) (h2 : allFunctions s.propStopHandlers) :
    allFunctions (step should s op).state.propStartHandlers ∧
      allFunctions (step should s op).state.propStopHandlers := by
  have frame : ∀ t : EntityAttribute, s.sameScheduler t →
      allFunctions t.propStartHandlers ∧ allFunctions t.propStopHandlers := by
    intro t ht
    obtain ⟨-, -, -, -, e5, e6, -⟩ := ht
    rw [e5, e6]; exact ⟨h1, h2⟩
  cases op with
  | setValue v => exact frame _ (s.setValue_frame v)
  | setUpdateType t => exact frame _ (s.setUpdateType_frame t)
  | setUpdateSpeed x => exact frame _ (s.setUpdateSpeed_frame x)
  | setUpdateValue v => exact frame _ (s.setUpdateValue_frame v)
  | reset => exact frame _ s.reset_frame
  | startUpdateHandler =>
    show allFunctions s.startUpdateHandler.state.propStartHandlers ∧
      allFunctions s.startUpdateHandler.state.propStopHandlers
    by_cases c : s.propUpdateType = UpdateType.None
    · rw [EntityAttribute.startUpdateHandler_none s c]; exact ⟨h1, h2⟩
    · rw [EntityAttribute.startUpdateHandler_updatable s c]; exact ⟨h1, h2⟩
  | stopUpdateHandler =>
    show allFunctions s.stopUpdateHandler.state.propStartHandlers ∧
      allFunctions s.stopUpdateHandler.state.propStopHandlers
    by_cases c : s.propUpdateUnsubscribe = Unsubscribe.closure
    · rw [EntityAttribute.stopUpdateHandler_running s c]; exact ⟨h1, h2⟩
    · rw [EntityAttribute.stopUpdateHandler_idle s c]; exact ⟨h1, h2⟩
  | addStartHandler cb =>
    show allFunctions (s.addStartHandler cb).state.propStartHandlers ∧
      allFunctions (s.addStartHandler cb).state.propStopHandlers
    unfold EntityAttribute.addStartHandler
    split_ifs with hf
    · exact ⟨h1, h2⟩
    · exact ⟨allFunctions_append_singleton _ _ h1 (not_not.1 hf), h2⟩
  | removeStartHandler cb =>
    exact ⟨fun x hx => h1 x (List.mem_of_mem_filter hx), h2⟩
  | registerStopHandler cb =>
    show allFunctions (s.registerStopHandler cb).state.propStartHandlers ∧
      allFunctions (s.registerStopHandler cb).state.propStopHandlers
    unfold EntityAttribute.registerStopHandler
    split_ifs with hf
    · exact ⟨h1, h2⟩
    · exact ⟨h1, allFunctions_append_singleton _ _ h2 (not_not.1 hf)⟩
  | removeStopHandler cb =>
    exact ⟨h1, fun x hx => h2 x (List.mem_of_mem_filter hx)⟩
  | tick now now2 =>
    obtain ⟨v, n, t, e⟩ := s.tick_shape should now now2
    show allFunctions (s.tick should now now2).state.propStartHandlers ∧
      allFunctions (s.tick should now now2).state.propStopHandlers
    rw [e]; exact ⟨h1, h2⟩

theorem run_allFunctions (should : EntityAttribute → Bool) (ops : List Op) :
    ∀ s : EntityAttribute, allFunctions s.propStartHandlers → allFunctions s.propStopHandlers →
      allFunctions (run should s ops).propStartHandlers ∧
        allFunctions (run should s ops).propStopHandlers := by
  induction ops with
  | nil => intro s h1 h2; exact ⟨h1, h2⟩
  | cons op ops ih =>
    intro s h1 h2
    obtain ⟨k1, k2⟩ := step_allFunctions should s op h1 h2
    exact ih _ k1 k2

theorem reachable_allFunctions (should : EntityAttribute → Bool) (cfg : Config) (now : Int)
    (a : EntityAttribute) (ops : List Op) (h : EntityAttribute.construct cfg now = .ok a) :
    allFunctions (run should a ops).propStartHandlers ∧
      allFunctions (run should a ops).propStopHandlers := by
  have e := (EntityAttribute.construct_ok cfg now a h).1
  apply run_allFunctions
  · rw [e]; intro x hx; simp [EntityAttribute.fresh, EntityAttribute.blank] at hx
  · rw [e]; intro x hx; simp [EntityAttribute.fresh, EntityAttribute.blank] at hx

/-- C13. On handler lists that hold functions, `removeStartHandler(cb)` and
`removeStopHandler(cb)` return normally for every `cb` and change nothing but their list,
which becomes the list with every occurrence of `cb` removed and the other entries in their
order; when `cb` is absent the state is unchanged; and after `addStartHandler(cb)`,
`removeStartHandler(cb)`, `startUpdateHandler()` the callback `cb` has been invoked no more
often than before. -/
theorem C13_remove_handlers (s : EntityAttribute) (cb : JsVal)
    (hstart : allFunctions s.propStartHandlers) (hstop : allFunctions s.propStopHandlers) :
    (s.removeStartHandler cb).thrown = none ∧
    (s.removeStartHandler cb).state
      = { s with propStartHandlers := withoutCallback cb s.propStartHandlers } ∧
    (s.removeStopHandler cb).thrown = none ∧
    (s.removeStopHandler cb).state
      = { s with propStopHandlers := withoutCallback cb s.propStopHandlers } ∧
    (cb ∉ s.propStartHandlers → (s.removeStartHandler cb).state = s) ∧
    (cb ∉ s.propStopHandlers → (s.removeStopHandler cb).state = s) ∧
    ((s.addStartHandler cb).state.removeStartHandler cb).state.startUpdateHandler.state.calls.count cb
      = s.calls.count cb := by
  have e1 : (s.removeStartHandler cb).state
      = { s with propStartHandlers := withoutCallback cb s.propStartHandlers } := by
    unfold removeStartHandler
    rw [filter_eq_withoutCallback cb _ hstart]; rfl
  have e2 : (s.removeStopHandler cb).state
      = { s with propStopHandlers := withoutCallback cb s.propStopHandlers } := by
    unfold removeStopHandler
    rw [filter_eq_withoutCallback cb _ hstop]; rfl
  refine ⟨rfl, e1, rfl, e2, ?_, ?_, ?_⟩
  · intro hm; rw [e1, withoutCallback_of_not_mem cb _ hm]
  · intro hm; rw [e2, withoutCallback_of_not_mem cb _ hm]
  · have key : ∀ t : EntityAttribute, allFunctions t.propStartHandlers → t.calls = s.calls →
        (t.removeStartHandler cb).state.startUpdateHandler.state.calls.count cb
          = s.calls.count cb := by
      intro t ht hc
      have e3 : (t.removeStartHandler cb).state
          = { t with propStartHandlers := withoutCallback cb t.propStartHandlers } := by
        unfold removeStartHandler
        rw [filter_eq_withoutCallback cb _ ht]; rfl
      rw [e3]
      generalize hu : ({ t with propStartHandlers := withoutCallback cb t.propStartHandlers }
        : EntityAttribute) = u
      have hu1 : u.propStartHandlers = withoutCallback cb t.propStartHandlers := by rw [← hu]
      have hu2 : u.calls = s.calls := by rw [← hu]; exact hc
      by_cases hn : u.propUpdateType = UpdateType.None
      · rw [startUpdateHandler_none u hn]
        show u.calls.count cb = _
        rw [hu2]
      · rw [startUpdateHandler_updatable u hn]
        show (u.calls ++ u.propStartHandlers).count cb = _
        rw [List.count_append, hu1, hu2,
          List.count_eq_zero_of_not_mem (not_mem_withoutCallback cb _)]
        rfl
    unfold addStartHandler
    split_ifs with hf
    · exact key s hstart rfl
    · exact key _ (allFunctions_append_singleton _ _ hstart (not_not.1 hf)) rfl

/-- Witness of C13: health with stop handlers 1, 2, 1; removing handler 1 leaves handler 2. -/
theorem C13_remove_handlers_witness :
    allFunctions (run shouldUpdate (fresh healthConfig 0) registerOps).propStartHandlers ∧
    allFunctions (run shouldUpdate (fresh healthConfig 0) registerOps).propStopHandlers ∧
    ((run shouldUpdate (fresh healthConfig 0) registerOps).removeStopHandler
      (JsVal.func 1)).state.propStopHandlers = [JsVal.func 2] :=
  ⟨by decide, by decide,
    (congrArg EntityAttribute.propStopHandlers
      (C13_remove_handlers (run shouldUpdate (fresh healthConfig 0) registerOps) (JsVal.func 1)
        (by decide) (by decide)).2.2.2.1).trans (by decide)⟩

/-- C15, counterexample. Cooldown has a valid name, value 1, update type `Set`, recharge
value 1 and the big integer `5n` as speed.  `Math.abs` throws `TypeError` on it: the
construction fails, at the speed check, with `TypeError` and not with `InvalidRechargeSpeed`. -/
theorem C15_construction_counterexample :
    construct cooldownConfig 0 = .error Exception.TypeError ∧
    cooldownConfig.name.typeof = JsType.string ∧ cooldownConfig.name.length ≠ 0 ∧
    cooldownConfig.value ≠ JsVal.null ∧ cooldownConfig.value ≠ JsVal.undefined ∧
    cooldownConfig.type = UpdateType.Set ∧
    cooldownConfig.updateValue.typeof = cooldownConfig.value.typeof ∧
    cooldownConfig.firstFailingCheck = some Exception.InvalidRechargeSpeed ∧
    ¬ (∀ e, construct cooldownConfig 0 = .error e → cooldownConfig.firstFailingCheck = some e) :=
  ⟨rfl, by decide, by decide, by decide, by decide, by decide, by decide, by decide,
    fun h => absurd (h Exception.TypeError rfl) (by decide)⟩

/-- C15, amended. Construction succeeds exactly when the name is a non-empty string, the value
is neither `null` nor `undefined`, the update type is one of the four, and either it is `None`
or `Math.abs` of the speed is a number other than NaN and the recharge value has the `typeof`
of the value; then it yields the state `fresh`.  When it fails it throws the error of the
first failing check in the order name, value, type, speed, recharge value, the speed check
throwing what `Math.abs` threw when it throws (`TypeError`, on a symbol or a big integer) and
`InvalidRechargeSpeed` otherwise. -/
theorem C15_construction (cfg : Config) (now : Int) :
    (construct cfg now =
      match cfg.firstThrown with
      | none => .ok (fresh cfg now)
      | some e => .error e) ∧
    ((∃ a, construct cfg now = .ok a) ↔ cfg.accepted) ∧
    ((∀ e, cfg.speed.mathAbs ≠ .error e) → cfg.firstThrown = cfg.firstFailingCheck) ∧
    (∀ e, cfg.speed.mathAbs = .error e → e = Exception.TypeError) := by
  refine ⟨construct_eq cfg now, ?_, cfg.firstThrown_eq_firstFailingCheck,
    fun e he => JsVal.mathAbs_error _ e he⟩
  rw [cfg.accepted_iff, construct_eq cfg now]
  cases cfg.firstThrown with
  | none => simp
  | some e => simp

/-- C16. When the current update type is not `None`, `setUpdateSpeed(x)` throws
`InvalidRechargeSpeed` exactly when `Math.abs(x)` is NaN, returns normally exactly when
`Math.abs(x)` is a number other than NaN, and on return `getUpdateSpeed()` is `x` itself. -/
theorem C16_setUpdateSpeed (s : EntityAttribute) (x : JsVal)
    (h : s.getUpdateType ≠ UpdateType.None) :
    ((s.setUpdateSpeed x).thrown = some Exception.InvalidRechargeSpeed ↔
      ∃ n, x.mathAbs = .ok n ∧ n.isNaN = true) ∧
    ((s.setUpdateSpeed x).thrown = none ↔ ∃ n, x.mathAbs = .ok n ∧ n.isNaN = false) ∧
    ((s.setUpdateSpeed x).thrown = none → (s.setUpdateSpeed x).state.getUpdateSpeed = x) := by
  cases hx : x.mathAbs with
  | error e =>
    rw [setUpdateSpeed_error s x e h hx]
    have he := JsVal.mathAbs_error x e hx
    subst he
    simp [Outcome.throw]
  | ok n =>
    rcases Bool.eq_false_or_eq_true n.isNaN with hn | hn
    · rw [setUpdateSpeed_nan s x n h hx hn]
      simp [Outcome.throw, hn]
    · rw [setUpdateSpeed_store s x n h hx hn]
      simp [Outcome.ok, hn, getUpdateSpeed]

/-- Witness of C16: on health `setUpdateSpeed(-5)` stores `-5`, sign included. -/
theorem C16_setUpdateSpeed_witness :
    (fresh healthConfig 0).getUpdateType ≠ UpdateType.None ∧
    ((fresh healthConfig 0).setUpdateSpeed (JsVal.num (JsNum.fin (-5)))).state.getUpdateSpeed
      = JsVal.num (JsNum.fin (-5)) :=
  ⟨by decide,
    (C16_setUpdateSpeed (fresh healthConfig 0) (JsVal.num (JsNum.fin (-5))) (by decide)).2.2
      ((C16_setUpdateSpeed (fresh healthConfig 0) (JsVal.num (JsNum.fin (-5)))
        (by decide)).2.1.2 ⟨JsNum.fin |(-5 : ℚ)|, rfl, rfl⟩)⟩

/-- C17. For every state, `reset()` leaves the cancel handle, the cancellation flag, the
last-applied timestamp, the queued ticks, both handler lists and the record of handler calls
unchanged; a Running scheduler stays Running, an Idle one Idle, and it is active after the
call exactly if it was before. -/
theorem C17_reset_frame (s : EntityAttribute) :
    s.reset.state.propUpdateUnsubscribe = s.propUpdateUnsubscribe ∧
    s.reset.state.preventUpdate = s.preventUpdate ∧
    s.reset.state.previousTime = s.previousTime ∧
    s.reset.state.pending = s.pending ∧
    s.reset.state.propStartHandlers = s.propStartHandlers ∧
    s.reset.state.propStopHandlers = s.propStopHandlers ∧
    s.reset.state.calls = s.calls ∧
    (s.Running → s.reset.state.Running) ∧
    (s.Idle → s.reset.state.Idle) ∧
    (s.active ↔ s.reset.state.active) := by
  obtain ⟨h1, h2, h3, h4, h5, h6, h7⟩ := reset_frame s
  refine ⟨h1, h2, h3, h4, h5, h6, h7, ?_, ?_, ?_⟩
  · intro hr; exact h1.trans hr
  · intro hi hr; exact hi (h1.symm.trans hr)
  · constructor
    · rintro ⟨a, b⟩; exact ⟨h4 ▸ a, h2.trans b⟩
    · rintro ⟨a, b⟩; exact ⟨h4 ▸ a, h2.symm.trans b⟩

/-- C19, the code at the failing input. Inventory is constructed with an object value, update
type `Set` (so not `None`) and recharge value `null`, whose `typeof` is that of the value.  In
the constructed state the update type is `Set` and the stored recharge value is `null`;
`setValue` refuses it, and after `startUpdateHandler()` the due tick at time 5 throws
`InvalidAttributeValue`. -/
theorem C19_null_recharge_value :
    construct inventoryConfig 0 = .ok (fresh inventoryConfig 0) ∧
    inventoryConfig.type ≠ UpdateType.None ∧
    (fresh inventoryConfig 0).getUpdateType = UpdateType.Set ∧
    (fresh inventoryConfig 0).getUpdateValue = JsVal.null ∧
    (fresh inventoryConfig 0).getUpdateValue.typeof = (fresh inventoryConfig 0).getValue.typeof ∧
    ((fresh inventoryConfig 0).setValue (fresh inventoryConfig 0).getUpdateValue).thrown
      = some Exception.InvalidAttributeValue ∧
    due shouldUpdate (run shouldUpdate (fresh inventoryConfig 0) [Op.startUpdateHandler]) 5
      = .ok true ∧
    ((run shouldUpdate (fresh inventoryConfig 0) [Op.startUpdateHandler]).tick
      shouldUpdate 5 5).thrown = some Exception.InvalidAttributeValue :=
  ⟨rfl, by decide, by decide, by decide, by decide, by decide, rfl, by decide⟩

